import Mathlib

/-!
Verification development for the COOD (Combined Out-Of-Distribution) detection
model of `geti_sdk/detect_ood/ood_model.py`.

The shallow embedding below translates the data model and the operations of the
source file into Lean.  Numeric values computed by the Python code are modelled
over a generic `LinearOrderedField α` (instantiated at `ℚ` for executable
witnesses and at `ℝ` where logarithms are needed); machine floats carry no
overflow-relevant behaviour in the claims under study.  Fallible Python code is
modelled with `Except PyErr`, where `PyErr` mirrors the exception classes the
source can raise (`ValueError`, `KeyError`, `IndexError`, `TypeError`).

Helper functions imported from `geti_sdk.detect_ood.utils`
(`normalise_features`, `stratified_selection`, `fit_pca_model`, `fre_score`,
`perform_knn_indexing`, `perform_knn_search`,
`calculate_entropy_nearest_neighbours`) are part of this repository but their
source file is not available here; each is modelled from the specification and
carries a doc comment saying so.
-/

/-- The Python exception classes raised by the code under study, with their
message (for `KeyError`, the missing key). -/
inductive PyErr where
  | valueError : String → PyErr
  | keyError : String → PyErr
  | indexError : String → PyErr
  | typeError : String → PyErr
deriving DecidableEq, Repr

/-- `Except` helper: `true` iff the computation succeeded. -/
def exceptIsOk : Except PyErr β → Bool
  | .ok _ => true
  | .error _ => false

/-- `Except` helper: extract the success value, if any. -/
def exceptOk? : Except PyErr β → Option β
  | .ok b => some b
  | .error _ => none

/-- Map a fallible function over a list, failing on the first error
(the model of a Python list comprehension or loop whose body may raise). -/
def listMapE (f : β → Except PyErr γ) : List β → Except PyErr (List γ)
  | [] => .ok []
  | b :: bs =>
    match f b with
    | .error e => .error e
    | .ok c =>
      match listMapE f bs with
      | .error e => .error e
      | .ok cs => .ok (c :: cs)

theorem listMapE_ok_of_forall (f : β → Except PyErr γ) (g : β → γ)
    (l : List β) (h : ∀ x ∈ l, f x = .ok (g x)) :
    listMapE f l = .ok (l.map g) := by
  induction l with
  | nil => rfl
  | cons b bs ih =>
    simp only [listMapE, h b (by simp), ih (fun x hx => h x (by simp [hx])),
      List.map]

theorem listMapE_ok_length (f : β → Except PyErr γ) (l : List β)
    (l' : List γ) (h : listMapE f l = .ok l') : l'.length = l.length := by
  induction l generalizing l' with
  | nil => simp only [listMapE] at h; cases h; rfl
  | cons b bs ih =>
    simp only [listMapE] at h
    cases hb : f b with
    | error e => rw [hb] at h; cases h
    | ok c =>
      rw [hb] at h
      cases hbs : listMapE f bs with
      | error e => rw [hbs] at h; cases h
      | ok cs => rw [hbs] at h; cases h; simp [ih cs hbs]

theorem listMapE_error_mem (f : β → Except PyErr γ) (l : List β) (e : PyErr)
    (h : listMapE f l = .error e) : ∃ x ∈ l, f x = .error e := by
  induction l with
  | nil => simp only [listMapE] at h; cases h
  | cons b bs ih =>
    simp only [listMapE] at h
    cases hb : f b with
    | error e' =>
      rw [hb] at h; cases h; exact ⟨b, by simp, hb⟩
    | ok c =>
      rw [hb] at h
      cases hbs : listMapE f bs with
      | error e' =>
        rw [hbs] at h; cases h
        obtain ⟨x, hx, hfx⟩ := ih hbs
        exact ⟨x, by simp [hx], hfx⟩
      | ok cs => rw [hbs] at h; cases h

theorem listMapE_exists_ok (f : β → Except PyErr γ) (l : List β)
    (h : ∀ x ∈ l, ∃ y, f x = .ok y) : ∃ l', listMapE f l = .ok l' := by
  induction l with
  | nil => exact ⟨[], rfl⟩
  | cons b bs ih =>
    obtain ⟨y, hy⟩ := h b (by simp)
    obtain ⟨l', hl'⟩ := ih (fun x hx => h x (by simp [hx]))
    exact ⟨y :: l', by simp only [listMapE, hy, hl']⟩

theorem exceptOkBind (a : β) (f : β → Except PyErr γ) :
    (Except.ok a : Except PyErr β) >>= f = f a := rfl

theorem exceptErrorBind (e : PyErr) (f : β → Except PyErr γ) :
    (Except.error e : Except PyErr β) >>= f = .error e := rfl

/-- `min` over a `foldl`-style accumulator is below the seed and every
element of the list (the shape of `List.min?` on a cons cell). -/
theorem foldl_min_le [LinearOrder γ] :
    ∀ (as : List γ) (a : γ),
      as.foldl min a ≤ a ∧ ∀ x ∈ as, as.foldl min a ≤ x
  | [], a => ⟨le_refl a, by simp⟩
  | b :: bs, a => by
    obtain ⟨h1, h2⟩ := foldl_min_le bs (min a b)
    refine ⟨le_trans h1 (min_le_left a b), ?_⟩
    intro x hx
    rcases List.mem_cons.mp hx with rfl | hx
    · exact le_trans h1 (min_le_right a x)
    · exact h2 x hx

theorem listMin?_le_of_mem [LinearOrder γ] {l : List γ} {m x : γ}
    (hm : l.min? = some m) (hx : x ∈ l) : m ≤ x := by
  cases l with
  | nil => cases hx
  | cons a as =>
    simp only [List.min?] at hm
    cases hm
    rcases List.mem_cons.mp hx with rfl | hx
    · exact (foldl_min_le as x).1
    · exact (foldl_min_le as a).2 x hx

/-- `getD` of a `zipWith` in range is the function of the two `getD`s. -/
theorem getD_zipWith (f : γ → δ → ε) :
    ∀ (l1 : List γ) (l2 : List δ) (i : Nat) (d1 : γ) (d2 : δ) (d3 : ε),
      i < l1.length → i < l2.length →
      (List.zipWith f l1 l2).getD i d3 = f (l1.getD i d1) (l2.getD i d2)
  | [], _, i, _, _, _, h1, _ => by cases h1
  | _ :: _, [], i, _, _, _, _, h2 => by cases h2
  | a :: l1, b :: l2, 0, d1, d2, d3, _, _ => rfl
  | a :: l1, b :: l2, i + 1, d1, d2, d3, h1, h2 =>
    getD_zipWith f l1 l2 i d1 d2 d3 (by simpa using h1) (by simpa using h2)

/-- `getD` of a `map` in range is the function of the `getD`. -/
theorem getD_map (f : γ → δ) :
    ∀ (l : List γ) (i : Nat) (d1 : γ) (d2 : δ),
      i < l.length → (l.map f).getD i d2 = f (l.getD i d1)
  | [], i, _, _, h => by cases h
  | a :: l, 0, d1, d2, _ => rfl
  | a :: l, i + 1, d1, d2, h =>
    getD_map f l i d1 d2 (by simpa using h)

/-- `ood_model.py` line 52: the purpose of a `DistributionDataItem`, assigned
during the train/test split. -/
inductive DistributionDataItemPurpose where
  | TRAIN : DistributionDataItemPurpose
  | TEST : DistributionDataItemPurpose
deriving DecidableEq, Repr

/-- `ood_model.py` lines 63-104: the record every OOD sub-model operates on.
`V` is the type of stored feature vectors and `α` the numeric type of
probabilities/scores.  `max_prediction_probability` is a `List α` because the
source stores a one-element tuple (`(raw_prediction....probability,)`,
lines 101-103), while `predicted_label` is a plain string (line 104). -/
structure DistributionDataItem (V α : Type) where
  media_name : Option String
  image_path : Option String
  annotated_label : Option String
  purpose : Option DistributionDataItemPurpose
  feature_vector : V
  max_prediction_probability : List α
  predicted_label : String

/-- A prediction label as produced by the deployment: a class name together
with its probability (external collaborator of the source file). -/
structure PredLabel (α : Type) where
  name : String
  probability : α

/-- One entry of `Prediction.annotations`; only `labels` is read by the
source file (`raw_prediction.annotations[0].labels[0]`). -/
structure Annot (α : Type) where
  labels : List (PredLabel α)

/-- The prediction object consumed by `DistributionDataItem.__init__`:
a dense feature embedding (already flattened to one dimension, which is what
lines 93-94 of the source ensure) plus ranked label predictions. -/
structure Prediction (α : Type) where
  feature_vector : List ℚ
  annotations : List (Annot α)

/-- Sum of squares of a rational vector; `sumSq v = 0` iff `v` has L2 norm 0. -/
def sumSq : List ℚ → ℚ
  | [] => 0
  | x :: xs => x * x + sumSq xs

/-- Sum of squares of a real vector. -/
noncomputable def sumSqR : List ℝ → ℝ
  | [] => 0
  | x :: xs => x * x + sumSqR xs

theorem sumSq_nonneg (v : List ℚ) : 0 ≤ sumSq v := by
  induction v with
  | nil => simp [sumSq]
  | cons x xs ih => simpa [sumSq] using add_nonneg (mul_self_nonneg x) ih

/-- Modelled from the spec: `normalise_features` is imported from
`geti_sdk.detect_ood.utils`, whose source is not available here.  Spec §4.1:
"if normalization requested, divide by its L2 norm (guard against a zero
vector - treat as a degenerate/error case, do not silently produce NaN)" and
§7: the zero-norm feature vector "must be handled deterministically
(documented policy, not a crash)".  The helper normalises a batch and the
caller takes row 0 (`normalise_features(feature_vector)[0]`); the
single-vector composition is modelled directly. -/
noncomputable def normalise_features (v : List ℚ) : Except PyErr (List ℝ) :=
  if sumSq v = 0 then
    .error (.valueError "zero-norm feature vector cannot be normalised")
  else
    .ok (v.map (fun x : ℚ => (x : ℝ) / Real.sqrt ((sumSq v : ℚ) : ℝ)))

/-- `ood_model.py` lines 76-104 (`DistributionDataItem.__init__`): flatten the
embedding (the model receives it already one-dimensional), optionally
normalise it (lines 96-97), then store the top-1 probability as a one-element
tuple (lines 101-103) and the top-1 label name (line 104).  Missing
`annotations[0]` or `labels[0]` is a Python `IndexError`, modelled as
`.error`. -/
noncomputable def DistributionDataItem.init (raw_prediction : Prediction ℚ)
    (media_name image_path annotated_label : Option String)
    (normalise_feature_vector : Bool)
    (purpose : Option DistributionDataItemPurpose) :
    Except PyErr (DistributionDataItem (List ℝ) ℚ) := do
  let fv ←
    if normalise_feature_vector then
      normalise_features raw_prediction.feature_vector
    else
      .ok (raw_prediction.feature_vector.map (fun x : ℚ => (x : ℝ)))
  let a ←
    match raw_prediction.annotations.get? 0 with
    | some a => Except.ok a
    | none => Except.error (.indexError "annotations is empty")
  let l ←
    match a.labels.get? 0 with
    | some l => Except.ok l
    | none => Except.error (.indexError "labels is empty")
  .ok { media_name := media_name
        image_path := image_path
        annotated_label := annotated_label
        purpose := purpose
        feature_vector := fv
        max_prediction_probability := [l.probability]
        predicted_label := l.name }

/-- A named-score dictionary as returned by every sub-model `forward`:
an insertion-ordered association list, the model of a Python `dict`
mapping score name to a score array (one entry per data item). -/
abbrev Scores (α : Type) := List (String × List α)

/-- `ood_model.py` lines 751-754: the message of the `ValueError` raised by
`OODSubModel.__call__` (and by the redundant guards inside the FRE forwards)
when the model has not been trained. -/
def notTrainedMessage : String :=
  "Model is not trained. Please train the model first before calling."

/-- The designated "not trained" error. -/
def notTrainedError : PyErr := .valueError notTrainedMessage

/-- State of `KNNBasedOODModel` (lines 790-794): `k`, the faiss search index
and the training labels, the latter two `None` until `train` runs. -/
structure KNNData (V : Type) where
  knn_k : Nat
  knn_search_index : Option (List V)
  train_set_labels : Option (List (Option String))

/-- State of `ClassFREBasedModel` (lines 895-898): the variance fraction and
the per-class PCA models (empty dict until trained).  A fitted PCA model is
represented by its induced feature-reconstruction-error function `V → α`
(see `freScore`). -/
structure ClassFREData (V α : Type) where
  n_components : ℚ
  pca_models_per_class : List (Option String × (V → α))

/-- State of `GlobalFREBasedModel` (lines 860-863). -/
structure GlobalFREData (V α : Type) where
  n_components : ℚ
  pca_model : Option (V → α)

/-- The closed set of sub-model variants of `ood_model.py`
(`KNNBasedOODModel`, `ClassFREBasedModel`, `GlobalFREBasedModel`,
`ProbabilityBasedModel`). -/
inductive OODSubModelData (V α : Type) where
  | knn : KNNData V → OODSubModelData V α
  | classFre : ClassFREData V α → OODSubModelData V α
  | globalFre : GlobalFREData V α → OODSubModelData V α
  | prob : OODSubModelData V α

/-- `ood_model.py` lines 732-775 (`OODSubModel`): every sub-model instance
carries the `_is_trained` flag of the abstract base class plus its
variant-specific fitted state. -/
structure OODSubModel (V α : Type) where
  _is_trained : Bool
  data : OODSubModelData V α

/-- `OODSubModel.is_trained` property (lines 764-769). -/
def OODSubModel.is_trained (m : OODSubModel V α) : Bool := m._is_trained

/-- Modelled from the spec: `perform_knn_indexing` (from
`geti_sdk.detect_ood.utils`, source not available) builds the exact or
approximate nearest-neighbour index over the training feature vectors;
the index is modelled as the stored list of vectors. -/
def perform_knn_indexing (feature_vectors : List V) : List V := feature_vectors

/-- Modelled from the spec: `fre_score` (from `geti_sdk.detect_ood.utils`,
source not available) computes each vector's feature reconstruction error
against a fitted PCA model; a PCA model is represented by its induced error
function, so `fre_score` is application. -/
def freScore (pca_model : V → α) (feature_vector : V) : α :=
  pca_model feature_vector

/-- `ood_model.py` lines 975-993 (`ProbabilityBasedModel.forward`): emit each
item's stored top-1 probability (`max_prediction_probability[0]`, unboxing
the 1-element tuple) under the single score name
`"max_softmax_probability"`. -/
def probItemScore [LinearOrderedField α]
    (it : DistributionDataItem V α) : Except PyErr α :=
  match it.max_prediction_probability.get? 0 with
  | some p => Except.ok p
  | none => Except.error (.indexError "tuple index out of range")

def probForward [LinearOrderedField α]
    (data_items : List (DistributionDataItem V α)) :
    Except PyErr (Scores α) :=
  match listMapE probItemScore data_items with
  | .error e => .error e
  | .ok msp_scores => .ok [("max_softmax_probability", msp_scores)]

/-- `ood_model.py` lines 875-885 (`GlobalFREBasedModel.forward`): the
redundant trained guard, then one score array `"global_fre_score"` holding
each item's reconstruction error against the global PCA model. -/
def globalFREForward [LinearOrderedField α] (st : GlobalFREData V α)
    (is_trained : Bool) (data_items : List (DistributionDataItem V α)) :
    Except PyErr (Scores α) :=
  if is_trained = false then .error notTrainedError
  else
    match st.pca_model with
    | none => .error (.typeError "pca model is None")
    | some pca =>
      .ok [("global_fre_score",
            data_items.map (fun it => freScore pca it.feature_vector))]

/-- The per-item lookup `fre_scores_per_class[item.predicted_label][i]`
of `ClassFREBasedModel.forward` (lines 941-944): the reconstruction error
against the subspace of the item's predicted label, a `KeyError` when that
label has no fitted subspace. -/
def classFREPredScore [LinearOrderedField α] (st : ClassFREData V α)
    (it : DistributionDataItem V α) : Except PyErr α :=
  match (st.pca_models_per_class.find?
      (fun p => p.1 == some it.predicted_label)) with
  | some p => Except.ok (freScore p.2 it.feature_vector)
  | none => Except.error (.keyError it.predicted_label)

/-- The per-item `np.min([fre_scores_per_class[label][i] for label ...])`
of `ClassFREBasedModel.forward` (lines 948-953): the minimum reconstruction
error over all fitted class subspaces, a `ValueError` when no class was
fitted. -/
def classFREMinScore [LinearOrderedField α] (st : ClassFREData V α)
    (it : DistributionDataItem V α) : Except PyErr α :=
  match (st.pca_models_per_class.map
      (fun p => freScore p.2 it.feature_vector)).min? with
  | some m => Except.ok m
  | none => Except.error (.valueError "min of an empty sequence")

/-- `ood_model.py` lines 922-966 (`ClassFREBasedModel.forward`).  The source
first builds, for every fitted class, the array of per-item reconstruction
errors (`fre_scores_per_class[label] = fre_score(features, pca_model)`), then
reads `fre_scores_per_class[label][i]` for item `i` with predicted label
`label` (a `KeyError` when the label has no fitted subspace), and
`np.min` over all classes for each item (a `ValueError` when no class was
fitted).  Because each per-class array is the pointwise map
`items.map (freScore model)`, indexing it at `i` equals applying the model to
item `i`; the per-item formulation below is pointwise identical to the
array-indexed one of the source.  The returned dict lists
`min_class_fre_score`, `predicted_class_fre_score`, and
`diff_min_and_predicted_class_fre = 1e-8 + (predicted - min)`
(lines 961-966). -/
def classFREForward [LinearOrderedField α] (st : ClassFREData V α)
    (is_trained : Bool) (data_items : List (DistributionDataItem V α)) :
    Except PyErr (Scores α) :=
  if is_trained = false then .error notTrainedError
  else
    match listMapE (classFREPredScore st) data_items with
    | .error e => .error e
    | .ok fre_scores_for_predicted_class =>
      match listMapE (classFREMinScore st) data_items with
      | .error e => .error e
      | .ok min_fre_scores =>
        .ok [("min_class_fre_score", min_fre_scores),
             ("predicted_class_fre_score", fre_scores_for_predicted_class),
             ("diff_min_and_predicted_class_fre",
              List.zipWith (fun p m => 1 / 100000000 + (p - m))
                fre_scores_for_predicted_class min_fre_scores)]

/-- `distances[:, -1]` per row (line 824): the distance to the k-th
neighbour; empty rows are a numpy indexing error. -/
def rowLastDistance [LinearOrderedField α] (row : List α) :
    Except PyErr α :=
  match row.getLast? with
  | some d => Except.ok d
  | none => Except.error (.indexError "empty distance row")

/-- `distances[:, 1]` per row (line 825): the distance to the nearest
neighbour beyond slot 0. -/
def rowSecondDistance [LinearOrderedField α] (row : List α) :
    Except PyErr α :=
  match row.get? 1 with
  | some d => Except.ok d
  | none => Except.error (.indexError "distance row shorter than 2")

/-- `np.mean(distances[:, 1:], axis=1)` per row (line 827). -/
def rowMeanRest [LinearOrderedField α] (row : List α) :
    Except PyErr α :=
  if (row.drop 1).length = 0 then
    Except.error (.valueError "mean of empty slice")
  else
    Except.ok ((row.drop 1).sum / ((row.drop 1).length : α))

/-- `ood_model.py` lines 811-850 (`KNNBasedOODModel.forward`).  The missing
helper `perform_knn_search` is passed in as `sfn` (it returns, per query
vector, the row of `k` sorted neighbour distances and the row of `k`
neighbour indices); the missing helper
`calculate_entropy_nearest_neighbours` is passed in as `efn` (it maps the
training labels and one row of neighbour indices to that row's label-
distribution entropy).  `distances[:, -1]` is the last entry of each row,
`distances[:, 1]` the entry at index 1, and
`np.mean(distances[:, 1:], axis=1)` the mean of entries `1..k-1`; a malformed
row (fewer than 2 entries) is a numpy indexing error / empty-slice mean,
modelled as `.error`.  `entropy_score += 1` is line 838; the EnWeDi scores
are the products of lines 840-841. -/
def knnForward [LinearOrderedField α]
    (sfn : List V → List V → Nat → List (List α) × List (List Nat))
    (efn : List (Option String) → List Nat → Nat → α)
    (st : KNNData V) (data_items : List (DistributionDataItem V α)) :
    Except PyErr (Scores α) :=
  match st.knn_search_index, st.train_set_labels with
  | none, _ => .error (.typeError "knn search index is None")
  | some _, none => .error (.typeError "train set labels is None")
  | some index, some train_labels =>
    match listMapE rowLastDistance
        (sfn index (data_items.map (fun it => it.feature_vector))
          st.knn_k).1 with
    | .error e => .error e
    | .ok knn_distance =>
      match listMapE rowSecondDistance
          (sfn index (data_items.map (fun it => it.feature_vector))
            st.knn_k).1 with
      | .error e => .error e
      | .ok nn_distance =>
        match listMapE rowMeanRest
            (sfn index (data_items.map (fun it => it.feature_vector))
              st.knn_k).1 with
        | .error e => .error e
        | .ok average_nn_distance =>
          .ok [("knn_distance", knn_distance),
               ("nn_distance", nn_distance),
               ("average_nn_distance", average_nn_distance),
               ("entropy_score",
                ((sfn index (data_items.map (fun it => it.feature_vector))
                    st.knn_k).2.map
                  (fun row => efn train_labels row st.knn_k)).map
                  (fun s => s + 1)),
               ("enwedi_score",
                List.zipWith (fun d s => d * s) average_nn_distance
                  (((sfn index (data_items.map (fun it => it.feature_vector))
                      st.knn_k).2.map
                    (fun row => efn train_labels row st.knn_k)).map
                    (fun s => s + 1))),
               ("enwedi_nn_score",
                List.zipWith (fun d s => d * s) nn_distance
                  (((sfn index (data_items.map (fun it => it.feature_vector))
                      st.knn_k).2.map
                    (fun row => efn train_labels row st.knn_k)).map
                    (fun s => s + 1)))]

/-- Dispatch of the abstract `forward` (lines 757-762) to the four variants.
The FRE variants re-check `_is_trained` inside their own `forward`
(lines 879-881 and 926-929), so the flag is passed through. -/
def OODSubModel.forwardD [LinearOrderedField α]
    (sfn : List V → List V → Nat → List (List α) × List (List Nat))
    (efn : List (Option String) → List Nat → Nat → α)
    (m : OODSubModel V α) (data_items : List (DistributionDataItem V α)) :
    Except PyErr (Scores α) :=
  match m.data with
  | .knn st => knnForward sfn efn st data_items
  | .classFre st => classFREForward st m._is_trained data_items
  | .globalFre st => globalFREForward st m._is_trained data_items
  | .prob => probForward data_items

/-- `ood_model.py` lines 747-755 (`OODSubModel.__call__`): check the trained
flag, raising the designated error before computing any score, then delegate
to `forward`. -/
def OODSubModel.call [LinearOrderedField α]
    (sfn : List V → List V → Nat → List (List α) × List (List Nat))
    (efn : List (Option String) → List Nat → Nat → α)
    (m : OODSubModel V α) (data_items : List (DistributionDataItem V α)) :
    Except PyErr (Scores α) :=
  if m._is_trained then m.forwardD sfn efn data_items
  else .error notTrainedError

/-- The feature vectors of the items annotated with class `label`
(lines 912-914: `class_indices` / `class_features`). -/
def classFeatures (data : List (DistributionDataItem V α))
    (label : Option String) : List V :=
  ((data.filter (fun it => it.annotated_label == label)).map
    (fun it => it.feature_vector))

/-- Dispatch of `train` to the four variants
(lines 796-809, 900-920, 865-873, 978-982).  `fitPCA` stands for the missing
helper `fit_pca_model` (it fits a PCA subspace over the given vectors at the
given variance fraction and is only used through `freScore`).  The source
iterates `np.unique(labels)` when fitting per-class models; the set of
distinct labels is the same as `List.dedup` (only the set, not the order, is
used by any property proved here).  Every variant ends by setting
`_is_trained = True`. -/
def OODSubModel.train (fitPCA : List V → ℚ → (V → α))
    (m : OODSubModel V α)
    (distribution_data : List (DistributionDataItem V α)) :
    OODSubModel V α :=
  match m.data with
  | .knn st =>
    { _is_trained := true
      data := .knn
        { st with
          knn_search_index := some (perform_knn_indexing
            (distribution_data.map (fun it => it.feature_vector)))
          train_set_labels := some
            (distribution_data.map (fun it => it.annotated_label)) } }
  | .classFre st =>
    { _is_trained := true
      data := .classFre
        { st with
          pca_models_per_class :=
            ((distribution_data.map (fun it => it.annotated_label)).dedup).map
              (fun label =>
                (label, fitPCA (classFeatures distribution_data label)
                  st.n_components)) } }
  | .globalFre st =>
    { _is_trained := true
      data := .globalFre
        { st with
          pca_model := some (fitPCA
            (distribution_data.map (fun it => it.feature_vector))
            st.n_components) } }
  | .prob => { _is_trained := true, data := .prob }

/-- `ood_model.py` lines 737-738 together with lines 975-976:
`ProbabilityBasedModel.__init__` only calls the base constructor, which sets
`self._is_trained = False`. -/
def ProbabilityBasedModel.init : OODSubModel V α :=
  { _is_trained := false, data := .prob }

/-- `KNNBasedOODModel.__init__` (lines 790-794): `knn_k` stored, index and
labels `None`, `_is_trained = False` from the base constructor. -/
def KNNBasedOODModel.init (knn_k : Nat) : OODSubModel V α :=
  { _is_trained := false
    data := .knn { knn_k := knn_k, knn_search_index := none,
                   train_set_labels := none } }

/-- `ClassFREBasedModel.__init__` (lines 895-898). -/
def ClassFREBasedModel.init (n_components : ℚ) : OODSubModel V α :=
  { _is_trained := false
    data := .classFre { n_components := n_components,
                        pca_models_per_class := [] } }

/-- `GlobalFREBasedModel.__init__` (lines 860-863). -/
def GlobalFREBasedModel.init (n_components : ℚ) : OODSubModel V α :=
  { _is_trained := false
    data := .globalFre { n_components := n_components, pca_model := none } }

/-- `scores_all_sub_models[score_type] = scores_dict[score_type]`
(line 448): a Python dict assignment keeps the position of an existing key
and appends a new key at the end. -/
def updateOrAppend (acc : Scores α) (kv : String × List α) : Scores α :=
  if acc.any (fun p => p.1 == kv.1) then
    acc.map (fun p => if p.1 == kv.1 then (p.1, kv.2) else p)
  else acc ++ [kv]

/-- The inner loop of `_infer_sub_models` (lines 447-448): fold one
sub-model's score dict into the accumulated dict. -/
def mergeScores (acc s : Scores α) : Scores α := s.foldl updateOrAppend acc

/-- `ood_model.py` lines 438-449 (`COODModel._infer_sub_models`): iterate the
sub-models in registry order, invoke each (`sub_model(distribution_data)`,
i.e. `OODSubModel.__call__`), and fold every returned score array into one
insertion-ordered dict. -/
def inferSubModelsGo [LinearOrderedField α]
    (sfn : List V → List V → Nat → List (List α) × List (List Nat))
    (efn : List (Option String) → List Nat → Nat → α)
    (sub_models : List (String × OODSubModel V α))
    (distribution_data : List (DistributionDataItem V α))
    (acc : Scores α) : Except PyErr (Scores α) :=
  match sub_models with
  | [] => .ok acc
  | (_, m) :: rest =>
    match m.call sfn efn distribution_data with
    | .error e => .error e
    | .ok scores_dict =>
      inferSubModelsGo sfn efn rest distribution_data
        (mergeScores acc scores_dict)

/-- `COODModel._infer_sub_models`, starting from the empty dict. -/
def inferSubModels [LinearOrderedField α]
    (sfn : List V → List V → Nat → List (List α) × List (List Nat))
    (efn : List (Option String) → List Nat → Nat → α)
    (sub_models : List (String × OODSubModel V α))
    (distribution_data : List (DistributionDataItem V α)) :
    Except PyErr (Scores α) :=
  inferSubModelsGo sfn efn sub_models distribution_data []

/-- `ood_model.py` lines 705-719
(`_aggregate_sub_model_scores_into_cood_features`): build the
`num_images × len(scores)` feature matrix, column `idx` holding the score
array of the `idx`-th dict entry.  The matrix starts as `np.zeros`, so a cell
no score array reaches keeps the value 0, which is what `getD _ _ 0`
expresses. -/
def aggregateScores [LinearOrderedField α] (scores_all_sub_models : Scores α)
    (num_images : Nat) : List (List α) :=
  (List.range num_images).map
    (fun i => scores_all_sub_models.map (fun kv => kv.2.getD i 0))

/-- `ood_model.py` lines 390-396 (`COODModel._train_sub_models`): train every
registered sub-model on the same (in-distribution) training data. -/
def trainSubModels (fitPCA : List V → ℚ → (V → α))
    (sub_models : List (String × OODSubModel V α))
    (train_data : List (DistributionDataItem V α)) :
    List (String × OODSubModel V α) :=
  sub_models.map (fun p => (p.1, p.2.train fitPCA train_data))

/-- `ood_model.py` lines 264-269: the ordered sub-model registry built in
`COODModel.__init__`. -/
def COODModel.sub_models : List (String × OODSubModel V α) :=
  [("knn_based", KNNBasedOODModel.init 10),
   ("class_fre", ClassFREBasedModel.init (995 / 1000)),
   ("global_fre", GlobalFREBasedModel.init (995 / 1000)),
   ("max_softmax_probability", ProbabilityBasedModel.init)]

/-- `ood_model.py` lines 398-436 (`COODModel._train`): train the sub-models
on the ID training split, score both training splits with them, aggregate
into feature matrices, row-concatenate ID features before OOD features
(`np.concatenate`, line 430), label every ID row 0 and every OOD row 1
(`np.zeros` / `np.ones`, line 432), and fit the random-forest classifier on
the combined matrix and label vector.  The external
`RandomForestClassifier.fit` is abstracted as `fit`; the model returns the
fitted classifier together with the trained sub-models. -/
def COOD_train {Cls : Type} [LinearOrderedField α]
    (fit : List (List α) → List α → Cls)
    (fitPCA : List V → ℚ → (V → α))
    (sfn : List V → List V → Nat → List (List α) × List (List Nat))
    (efn : List (Option String) → List Nat → Nat → α)
    (sub_models : List (String × OODSubModel V α))
    (train_id_data train_ood_data : List (DistributionDataItem V α)) :
    Except PyErr (Cls × List (String × OODSubModel V α)) :=
  let sms := trainSubModels fitPCA sub_models train_id_data
  match inferSubModels sfn efn sms train_id_data with
  | .error e => .error e
  | .ok id_scores_all_sub_models =>
    match inferSubModels sfn efn sms train_ood_data with
    | .error e => .error e
    | .ok ood_scores_all_sub_models =>
      let id_features :=
        aggregateScores id_scores_all_sub_models train_id_data.length
      let ood_features :=
        aggregateScores ood_scores_all_sub_models train_ood_data.length
      let all_features := id_features ++ ood_features
      let all_labels :=
        List.replicate train_id_data.length (0 : α) ++
          List.replicate train_ood_data.length (1 : α)
      .ok (fit all_features all_labels, sms)

/-- `ood_model.py` lines 491-508 (`COODModel.__call__`): wrap the prediction
into one `DistributionDataItem` (media name and path `"sample"`, annotated
label `""`, default normalisation), score it with every sub-model, aggregate
into a 1-row feature matrix, run the fitted classifier's `predict_proba`
(abstracted as `predict_proba`), and return `cood_score[0][1]` - the
predicted probability of class index 1 (the OOD class). -/
noncomputable def COOD_call {Cls : Type}
    (predict_proba : Cls → List (List ℚ) → List (List ℚ))
    (sfn : List (List ℝ) → List (List ℝ) → Nat →
      List (List ℚ) × List (List Nat))
    (efn : List (Option String) → List Nat → Nat → ℚ)
    (ood_classifier : Cls)
    (sub_models : List (String × OODSubModel (List ℝ) ℚ))
    (prediction : Prediction ℚ) : Except PyErr ℚ :=
  match DistributionDataItem.init prediction (some "sample") (some "sample")
      (some "") true none with
  | .error e => .error e
  | .ok data_item =>
    match inferSubModels sfn efn sub_models [data_item] with
    | .error e => .error e
    | .ok scores_all_sub_models =>
      let features_arranged := aggregateScores scores_all_sub_models 1
      let cood_score := predict_proba ood_classifier features_arranged
      match cood_score.get? 0 with
      | none => .error (.indexError "cood score has no row 0")
      | some row =>
        match row.get? 1 with
        | none => .error (.indexError "cood score row has no column 1")
        | some p => .ok p

/-- The indices (into `labels`) of the items annotated with class `label`. -/
def classIndices (labels : List (Option String)) (label : Option String) :
    List Nat :=
  (List.range labels.length).filter (fun i => labels.getD i none == label)

/-- Round a rational to the nearest natural number (half up). -/
def ratRound (q : ℚ) : Nat := (⌊q + 1 / 2⌋).toNat

/-- Per-class number of TRAIN samples: the rounded fraction of the class
count, clamped so that (for classes with at least 2 members) at least one
item stays in each partition; a singleton class goes entirely to TRAIN
(`min_samples_per_class=1`: at least one sample of every class lands in
TRAIN). -/
def perClassTrainCount (fraction : ℚ) (c : Nat) : Nat :=
  if c ≤ 1 then c
  else max 1 (min (c - 1) (ratRound (fraction * c)))

/-- Modelled from the spec: `stratified_selection` (from
`geti_sdk.detect_ood.utils`, source not available; called at
`ood_model.py` lines 526-531 with `min_samples_per_class=1`).  Spec §4.7/§8:
a stratified split "ensures ≥1 sample of every class lands in TRAIN even for
rare classes" at the given fraction, and for every class with at least two
members both partitions receive at least one member.  The model selects, per
distinct annotated label, the first `perClassTrainCount` of that class's
indices. -/
def stratified_selection (labels : List (Option String)) (fraction : ℚ) :
    List Nat :=
  (labels.dedup).flatMap
    (fun label =>
      (classIndices labels label).take
        (perClassTrainCount fraction (classIndices labels label).length))

/-- `ood_model.py` lines 541-557 (`_assign_train_test_purpose_to_data`):
every index in `train_indices` is assigned the purpose TRAIN and every other
index the purpose TEST (overwriting any previous purpose).  The source
mutates the list in place; the model returns the updated list, recursing
with the running index. -/
def assignPurpose (train_indices : List Nat) :
    Nat → List (DistributionDataItem V α) → List (DistributionDataItem V α)
  | _, [] => []
  | i, it :: rest =>
    { it with purpose := some (if i ∈ train_indices then .TRAIN else .TEST) }
      :: assignPurpose train_indices (i + 1) rest

/-- `_assign_train_test_purpose_to_data`, starting at index 0. -/
def assignTrainTestPurpose (data : List (DistributionDataItem V α))
    (train_indices : List Nat) : List (DistributionDataItem V α) :=
  assignPurpose train_indices 0 data

/-- `ood_model.py` lines 510-539 (`COODModel._split_data`): with
`stratified=True` select the TRAIN indices by `stratified_selection` over the
annotated labels; otherwise the source draws
`np.random.choice(len(data), int(split_ratio*len(data)), replace=False)`,
whose (unseeded) outcome is modelled by the parameter `random_choice`.
Either way the selected indices are assigned TRAIN and the rest TEST. -/
def split_data (data : List (DistributionDataItem V α)) (stratified : Bool)
    (split_ratio : ℚ) (random_choice : List Nat) :
    List (DistributionDataItem V α) :=
  let selected_indices :=
    if stratified then
      stratified_selection (data.map (fun it => it.annotated_label))
        split_ratio
    else random_choice
  assignTrainTestPurpose data selected_indices

/-- Shannon entropy (natural logarithm) of the label distribution of a list:
the sum over the distinct labels of `-p * log p` with `p` the label's
relative frequency. -/
noncomputable def shannonEntropy (labels : List (Option String)) : ℝ :=
  ((labels.dedup).map
    (fun a => Real.negMulLog ((labels.count a : ℝ) / (labels.length : ℝ)))).sum

/-- Modelled from the spec: `calculate_entropy_nearest_neighbours` (from
`geti_sdk.detect_ood.utils`, source not available; called at
`ood_model.py` lines 829-833).  Spec §4.3: the Shannon entropy "of the label
distribution among the k nearest training neighbors"; the neighbour labels
are the training labels at the `k` indices returned by the kNN search (the
row length equals `k`, so `k` itself is not consumed again). -/
noncomputable def calculate_entropy_nearest_neighbours
    (train_labels : List (Option String)) (nn_index_row : List Nat)
    (_k : Nat) : ℝ :=
  shannonEntropy (nn_index_row.map (fun i => train_labels.getD i none))

theorem listMapE_ok_forall_ok (f : β → Except PyErr γ) (l : List β)
    (l' : List γ) (h : listMapE f l = .ok l') :
    ∀ x ∈ l, ∃ y, f x = .ok y := by
  induction l generalizing l' with
  | nil => intro x hx; cases hx
  | cons b bs ih =>
    simp only [listMapE] at h
    cases hb : f b with
    | error e => rw [hb] at h; cases h
    | ok c =>
      rw [hb] at h
      cases hbs : listMapE f bs with
      | error e => rw [hbs] at h; cases h
      | ok cs =>
        intro x hx
        rcases List.mem_cons.mp hx with rfl | hx
        · exact ⟨c, hb⟩
        · exact ih cs hbs x hx

theorem knnForward_ne_notTrained [LinearOrderedField α]
    (sfn : List V → List V → Nat → List (List α) × List (List Nat))
    (efn : List (Option String) → List Nat → Nat → α)
    (st : KNNData V) (items : List (DistributionDataItem V α)) :
    knnForward sfn efn st items ≠ .error notTrainedError := by
  intro h
  unfold knnForward at h
  split at h
  · simp [notTrainedError] at h
  · simp [notTrainedError] at h
  · split at h
    case _ e heq =>
      rw [Except.error.injEq] at h
      subst h
      obtain ⟨row, _, hrow⟩ := listMapE_error_mem _ _ _ heq
      unfold rowLastDistance at hrow
      split at hrow
      · simp at hrow
      · rw [Except.error.injEq] at hrow
        simp [notTrainedError] at hrow
    case _ =>
      split at h
      case _ e heq =>
        rw [Except.error.injEq] at h
        subst h
        obtain ⟨row, _, hrow⟩ := listMapE_error_mem _ _ _ heq
        unfold rowSecondDistance at hrow
        split at hrow
        · simp at hrow
        · rw [Except.error.injEq] at hrow
          simp [notTrainedError] at hrow
      case _ =>
        split at h
        case _ e heq =>
          rw [Except.error.injEq] at h
          subst h
          obtain ⟨row, _, hrow⟩ := listMapE_error_mem _ _ _ heq
          unfold rowMeanRest at hrow
          split at hrow
          · rw [Except.error.injEq] at hrow
            simp [notTrainedError, notTrainedMessage] at hrow
          · simp at hrow
        case _ =>
          simp at h

theorem classFREForward_ne_notTrained [LinearOrderedField α]
    (st : ClassFREData V α) (items : List (DistributionDataItem V α)) :
    classFREForward st true items ≠ .error notTrainedError := by
  intro h
  unfold classFREForward at h
  rw [if_neg (by simp)] at h
  split at h
  case _ e heq =>
    rw [Except.error.injEq] at h
    subst h
    obtain ⟨x, _, hx⟩ := listMapE_error_mem _ _ _ heq
    unfold classFREPredScore at hx
    split at hx
    · simp at hx
    · rw [Except.error.injEq] at hx
      simp [notTrainedError] at hx
  case _ =>
    split at h
    case _ e heq =>
      rw [Except.error.injEq] at h
      subst h
      obtain ⟨x, _, hx⟩ := listMapE_error_mem _ _ _ heq
      unfold classFREMinScore at hx
      split at hx
      · simp at hx
      · rw [Except.error.injEq] at hx
        simp [notTrainedError, notTrainedMessage] at hx
    case _ =>
      simp at h

theorem globalFREForward_ne_notTrained [LinearOrderedField α]
    (st : GlobalFREData V α) (items : List (DistributionDataItem V α)) :
    globalFREForward st true items ≠ .error notTrainedError := by
  intro h
  unfold globalFREForward at h
  rw [if_neg (by simp)] at h
  split at h
  · simp [notTrainedError] at h
  · simp at h

theorem probForward_ne_notTrained [LinearOrderedField α]
    (items : List (DistributionDataItem V α)) :
    probForward (V := V) (α := α) items ≠ .error notTrainedError := by
  intro h
  unfold probForward at h
  split at h
  case _ e heq =>
    rw [Except.error.injEq] at h
    subst h
    obtain ⟨x, _, hx⟩ := listMapE_error_mem _ _ _ heq
    unfold probItemScore at hx
    split at hx
    · simp at hx
    · rw [Except.error.injEq] at hx
      simp [notTrainedError] at hx
  case _ =>
    simp at h

/-- C3: for every sub-model variant and every list of data items, invoking
the scoring call (`OODSubModel.__call__`) on a sub-model whose trained flag
is false raises the designated "not trained" error (and computes no scores);
a `train` call always leaves the trained flag true, and on a trained
sub-model the scoring call delegates to `forward` and never produces the
"not trained" error, so scoring may be repeated without limit. -/
theorem claim_C3 {V α : Type} [LinearOrderedField α]
    (sfn : List V → List V → Nat → List (List α) × List (List Nat))
    (efn : List (Option String) → List Nat → Nat → α)
    (fitPCA : List V → ℚ → (V → α))
    (m : OODSubModel V α)
    (items train_data : List (DistributionDataItem V α)) :
    (m.is_trained = false →
      m.call sfn efn items = .error notTrainedError) ∧
    ((m.train fitPCA train_data).is_trained = true) ∧
    (m.is_trained = true →
      m.call sfn efn items = m.forwardD sfn efn items ∧
      m.call sfn efn items ≠ .error notTrainedError) := by
  obtain ⟨flag, data⟩ := m
  refine ⟨?_, ?_, ?_⟩
  · intro h
    simp only [OODSubModel.is_trained] at h
    subst h
    simp [OODSubModel.call]
  · cases data <;> simp [OODSubModel.train, OODSubModel.is_trained]
  · intro h
    simp only [OODSubModel.is_trained] at h
    subst h
    refine ⟨by simp [OODSubModel.call], ?_⟩
    simp only [OODSubModel.call, if_pos rfl]
    cases data with
    | knn st => exact knnForward_ne_notTrained sfn efn st items
    | classFre st => exact classFREForward_ne_notTrained st items
    | globalFre st => exact globalFREForward_ne_notTrained st items
    | prob => exact probForward_ne_notTrained items

/-- A concrete data item used by witnesses (feature vectors are trivial,
scores rational). -/
def sampleItem (label : String) (annotated : Option String) (p : ℚ) :
    DistributionDataItem Unit ℚ :=
  { media_name := none, image_path := none, annotated_label := annotated,
    purpose := none, feature_vector := (), max_prediction_probability := [p],
    predicted_label := label }

/-- Witness for C3 at a concrete sub-model: the untrained max-probability
model raises the "not trained" error, and its trained flag is true right
after `train`. -/
theorem claim_C3_witness :
    (ProbabilityBasedModel.init : OODSubModel Unit ℚ).call
        (fun _ _ _ => ([], [])) (fun _ _ _ => 0) [] =
      .error notTrainedError ∧
    (((ProbabilityBasedModel.init : OODSubModel Unit ℚ).train
        (fun _ _ => fun _ => 0) []).is_trained = true) := by
  obtain ⟨h1, h2, _⟩ := claim_C3 (fun _ _ _ => ([], [])) (fun _ _ _ => 0)
    (fun _ _ => fun _ => 0) (ProbabilityBasedModel.init : OODSubModel Unit ℚ)
    [] []
  exact ⟨h1 rfl, h2⟩

/-- C4 counterexample: immediately after construction
(`ProbabilityBasedModel.__init__`, which only runs the base constructor
`OODSubModel.__init__` setting `self._is_trained = False`), the
max-probability sub-model's trained flag is NOT true. -/
theorem claim_C4_counterexample :
    ¬ ((ProbabilityBasedModel.init : OODSubModel Unit ℚ).is_trained = true) := by
  decide

/-- C4 (amended): the max-probability baseline sub-model requires no fitting:
its trained flag is false immediately after construction and becomes true
after the (no-op) `train` call, which stores nothing; scoring emits each
item's stored top-1 probability under the single score name
`max_softmax_probability`. -/
theorem claim_C4_amended {V α : Type} [LinearOrderedField α]
    (fitPCA : List V → ℚ → (V → α))
    (train_data items : List (DistributionDataItem V α))
    (h : ∀ it ∈ items, it.max_prediction_probability ≠ []) :
    (ProbabilityBasedModel.init : OODSubModel V α).is_trained = false ∧
    (ProbabilityBasedModel.init : OODSubModel V α).train fitPCA train_data =
      { _is_trained := true, data := .prob } ∧
    probForward items =
      .ok [("max_softmax_probability",
            items.map (fun it => it.max_prediction_probability.getD 0 0))] := by
  refine ⟨rfl, rfl, ?_⟩
  unfold probForward
  rw [listMapE_ok_of_forall _
    (fun it => it.max_prediction_probability.getD 0 0) items ?_]
  intro it hit
  cases hmp : it.max_prediction_probability with
  | nil => exact absurd hmp (h it hit)
  | cons p ps => simp [probItemScore, hmp]

/-- Witness for C4's amended theorem at a concrete item. -/
theorem claim_C4_amended_witness :
    (ProbabilityBasedModel.init : OODSubModel Unit ℚ).is_trained = false ∧
    probForward [sampleItem "cat" (some "cat") (9 / 10)] =
      .ok [("max_softmax_probability", [(9 : ℚ) / 10])] := by
  obtain ⟨h1, _, h3⟩ := claim_C4_amended (V := Unit) (α := ℚ)
    (fun _ _ => fun _ => 0) [] [sampleItem "cat" (some "cat") (9 / 10)]
    (by intro it hit; simp at hit; subst hit; simp [sampleItem])
  exact ⟨h1, h3⟩


/-- C9 (implicit): per-class subspace scoring is total exactly over items
whose predicted label has a fitted subspace.  If some item's predicted label
matches no key of `pca_models_per_class`, the trained per-class sub-model's
scoring fails with a lookup error (`KeyError`); if every item's predicted
label is fitted (and at least one class was fitted), scoring returns
scores. -/
theorem claim_C9 {V α : Type} [LinearOrderedField α] (st : ClassFREData V α)
    (items : List (DistributionDataItem V α)) :
    ((∃ x ∈ items,
        st.pca_models_per_class.find?
          (fun pr => pr.1 == some x.predicted_label) = none) →
      ∃ lbl, classFREForward st true items = .error (.keyError lbl)) ∧
    (st.pca_models_per_class ≠ [] →
      (∀ x ∈ items,
        (st.pca_models_per_class.find?
          (fun pr => pr.1 == some x.predicted_label)).isSome) →
      ∃ s, classFREForward st true items = .ok s) := by
  constructor
  · rintro ⟨x, hx, hfind⟩
    have hfx : classFREPredScore st x =
        Except.error (PyErr.keyError x.predicted_label) := by
      unfold classFREPredScore
      rw [hfind]
    cases hmap : listMapE (classFREPredScore st) items with
    | ok l' =>
      obtain ⟨y, hy⟩ := listMapE_ok_forall_ok _ _ _ hmap x hx
      rw [hfx] at hy
      cases hy
    | error e =>
      obtain ⟨y, _, hfy⟩ := listMapE_error_mem _ _ _ hmap
      have hkey : ∃ lbl, e = .keyError lbl := by
        unfold classFREPredScore at hfy
        split at hfy
        · cases hfy
        · rw [Except.error.injEq] at hfy
          exact ⟨_, hfy.symm⟩
      obtain ⟨lbl, rfl⟩ := hkey
      refine ⟨lbl, ?_⟩
      unfold classFREForward
      rw [if_neg (by simp), hmap]
  · intro hM hall
    obtain ⟨predL, hpred⟩ := listMapE_exists_ok (classFREPredScore st) items
      (by
        intro x hx
        obtain ⟨p, hp⟩ := Option.isSome_iff_exists.mp (hall x hx)
        refine ⟨freScore p.2 x.feature_vector, ?_⟩
        unfold classFREPredScore
        rw [hp])
    obtain ⟨minL, hmin⟩ := listMapE_exists_ok (classFREMinScore st) items
      (by
        intro x _
        cases hMc : st.pca_models_per_class with
        | nil => exact absurd hMc hM
        | cons p ps =>
          have hs : ((st.pca_models_per_class.map
              (fun pr => freScore pr.2 x.feature_vector))).min?.isSome := by
            rw [hMc]; simp [List.min?]
          obtain ⟨m, hm⟩ := Option.isSome_iff_exists.mp hs
          refine ⟨m, ?_⟩
          unfold classFREMinScore
          rw [hm])
    refine ⟨[("min_class_fre_score", minL),
             ("predicted_class_fre_score", predL),
             ("diff_min_and_predicted_class_fre",
              List.zipWith (fun p m => 1 / 100000000 + (p - m)) predL minL)],
      ?_⟩
    unfold classFREForward
    rw [if_neg (by simp), hpred, hmin]

/-- Witness for C9: with one fitted class `"cat"`, scoring an item predicted
`"dog"` fails and scoring an item predicted `"cat"` succeeds. -/
theorem claim_C9_witness :
    exceptIsOk (classFREForward
      ({ n_components := 995 / 1000,
         pca_models_per_class := [(some "cat", fun _ => (0 : ℚ))] } :
        ClassFREData Unit ℚ)
      true [sampleItem "dog" none 1]) = false ∧
    exceptIsOk (classFREForward
      ({ n_components := 995 / 1000,
         pca_models_per_class := [(some "cat", fun _ => (0 : ℚ))] } :
        ClassFREData Unit ℚ)
      true [sampleItem "cat" none 1]) = true := by
  obtain ⟨lbl, h1⟩ := (claim_C9
    ({ n_components := 995 / 1000,
       pca_models_per_class := [(some "cat", fun _ => (0 : ℚ))] } :
      ClassFREData Unit ℚ) [sampleItem "dog" none 1]).1
    ⟨sampleItem "dog" none 1, by simp, rfl⟩
  obtain ⟨s, h2⟩ := (claim_C9
    ({ n_components := 995 / 1000,
       pca_models_per_class := [(some "cat", fun _ => (0 : ℚ))] } :
      ClassFREData Unit ℚ) [sampleItem "cat" none 1]).2
    (by simp)
    (by intro x hx; simp at hx; subst hx; rfl)
  rw [h1, h2]
  exact ⟨rfl, rfl⟩

/-- C5: for every query item scored by the trained per-class subspace
sub-model (with at least one fitted class and every item's predicted label
fitted), `min_class_fre_score` is the minimum reconstruction error over all
fitted class subspaces (it belongs to the set of per-class errors and is
below every one of them), `diff_min_and_predicted_class_fre` equals
`predicted_class_fre_score - min_class_fre_score + 1e-8`, and - because the
predicted label is one of the fitted classes, so its error is one of the
per-class errors - the gap is at least 1e-8 and never exactly zero. -/
theorem claim_C5 {V α : Type} [LinearOrderedField α] (st : ClassFREData V α)
    (items : List (DistributionDataItem V α))
    (hM : st.pca_models_per_class ≠ [])
    (hall : ∀ x ∈ items,
      (st.pca_models_per_class.find?
        (fun pr => pr.1 == some x.predicted_label)).isSome) :
    ∃ predL minL,
      classFREForward st true items =
        .ok [("min_class_fre_score", minL),
             ("predicted_class_fre_score", predL),
             ("diff_min_and_predicted_class_fre",
              List.zipWith (fun p m => 1 / 100000000 + (p - m))
                predL minL)] ∧
      minL.length = items.length ∧ predL.length = items.length ∧
      ∀ i (hi : i < items.length),
        (minL.getD i 0 ∈ st.pca_models_per_class.map
            (fun pr => freScore pr.2 (items[i]).feature_vector) ∧
         ∀ y ∈ st.pca_models_per_class.map
            (fun pr => freScore pr.2 (items[i]).feature_vector),
           minL.getD i 0 ≤ y) ∧
        predL.getD i 0 ∈ st.pca_models_per_class.map
          (fun pr => freScore pr.2 (items[i]).feature_vector) ∧
        (List.zipWith (fun p m => 1 / 100000000 + (p - m)) predL
            minL).getD i 0 =
          predL.getD i 0 - minL.getD i 0 + 1 / 100000000 ∧
        1 / 100000000 ≤
          (List.zipWith (fun p m => 1 / 100000000 + (p - m)) predL
            minL).getD i 0 ∧
        (List.zipWith (fun p m => 1 / 100000000 + (p - m)) predL
            minL).getD i 0 ≠ 0 := by
  have hpredItem : ∀ x ∈ items, classFREPredScore st x =
      .ok (freScore ((st.pca_models_per_class.find?
          (fun pr => pr.1 == some x.predicted_label)).getD
            (none, fun _ => 0)).2 x.feature_vector) := by
    intro x hx
    obtain ⟨p, hp⟩ := Option.isSome_iff_exists.mp (hall x hx)
    unfold classFREPredScore
    rw [hp]
    rfl
  have hminItem : ∀ x ∈ items, classFREMinScore st x =
      .ok (((st.pca_models_per_class.map
          (fun pr => freScore pr.2 x.feature_vector)).min?).getD 0) := by
    intro x _
    unfold classFREMinScore
    cases hmc : (st.pca_models_per_class.map
        (fun pr => freScore pr.2 x.feature_vector)).min? with
    | none =>
      rw [List.min?_eq_none_iff] at hmc
      exact absurd (List.map_eq_nil_iff.mp hmc) hM
    | some m => rfl
  have hpred := listMapE_ok_of_forall (classFREPredScore st)
    (fun x => freScore ((st.pca_models_per_class.find?
        (fun pr => pr.1 == some x.predicted_label)).getD
          (none, fun _ => 0)).2 x.feature_vector) items hpredItem
  have hmin := listMapE_ok_of_forall (classFREMinScore st)
    (fun x => ((st.pca_models_per_class.map
        (fun pr => freScore pr.2 x.feature_vector)).min?).getD 0)
    items hminItem
  refine ⟨items.map (fun x => freScore ((st.pca_models_per_class.find?
        (fun pr => pr.1 == some x.predicted_label)).getD
          (none, fun _ => 0)).2 x.feature_vector),
    items.map (fun x => ((st.pca_models_per_class.map
        (fun pr => freScore pr.2 x.feature_vector)).min?).getD 0),
    ?_, by simp, by simp, ?_⟩
  · unfold classFREForward
    rw [if_neg (by simp), hpred, hmin]
  · intro i hi
    have hmem : items[i] ∈ items := List.getElem_mem hi
    have hgetP : (items.map (fun x => freScore
        ((st.pca_models_per_class.find?
          (fun pr => pr.1 == some x.predicted_label)).getD
            (none, fun _ => 0)).2 x.feature_vector)).getD i 0 =
        freScore ((st.pca_models_per_class.find?
          (fun pr => pr.1 == some (items[i]).predicted_label)).getD
            (none, fun _ => 0)).2 (items[i]).feature_vector := by
      rw [getD_map _ items i (items[i]) 0 hi, List.getD_eq_getElem]
    have hgetM : (items.map (fun x => ((st.pca_models_per_class.map
        (fun pr => freScore pr.2 x.feature_vector)).min?).getD 0)).getD
          i 0 =
        ((st.pca_models_per_class.map
          (fun pr => freScore pr.2 (items[i]).feature_vector)).min?).getD
            0 := by
      rw [getD_map _ items i (items[i]) 0 hi, List.getD_eq_getElem]
    obtain ⟨pfound, hpfound⟩ :=
      Option.isSome_iff_exists.mp (hall (items[i]) hmem)
    have hminSome : ∃ m, (st.pca_models_per_class.map
        (fun pr => freScore pr.2 (items[i]).feature_vector)).min? =
          some m := by
      cases hmc2 : (st.pca_models_per_class.map
          (fun pr => freScore pr.2 (items[i]).feature_vector)).min? with
      | none =>
        rw [List.min?_eq_none_iff] at hmc2
        exact absurd (List.map_eq_nil_iff.mp hmc2) hM
      | some m => exact ⟨m, rfl⟩
    obtain ⟨m, hm⟩ := hminSome
    have hminVal : ((st.pca_models_per_class.map
        (fun pr => freScore pr.2 (items[i]).feature_vector)).min?).getD
          0 = m := by rw [hm]; rfl
    have hmMem : m ∈ st.pca_models_per_class.map
        (fun pr => freScore pr.2 (items[i]).feature_vector) :=
      List.min?_mem (fun a b => min_choice a b) hm
    have hmLe : ∀ y ∈ st.pca_models_per_class.map
        (fun pr => freScore pr.2 (items[i]).feature_vector), m ≤ y :=
      fun y hy => listMin?_le_of_mem hm hy
    have hpredMem : freScore ((st.pca_models_per_class.find?
        (fun pr => pr.1 == some (items[i]).predicted_label)).getD
          (none, fun _ => 0)).2 (items[i]).feature_vector ∈
        st.pca_models_per_class.map
          (fun pr => freScore pr.2 (items[i]).feature_vector) := by
      rw [hpfound]
      exact List.mem_map.mpr
        ⟨pfound, List.mem_of_find?_eq_some hpfound, rfl⟩
    have hzip : (List.zipWith (fun p m => 1 / 100000000 + (p - m))
        (items.map (fun x => freScore ((st.pca_models_per_class.find?
          (fun pr => pr.1 == some x.predicted_label)).getD
            (none, fun _ => 0)).2 x.feature_vector))
        (items.map (fun x => ((st.pca_models_per_class.map
          (fun pr => freScore pr.2 x.feature_vector)).min?).getD 0))).getD
            i 0 =
        1 / 100000000 +
          (freScore ((st.pca_models_per_class.find?
            (fun pr => pr.1 == some (items[i]).predicted_label)).getD
              (none, fun _ => 0)).2 (items[i]).feature_vector - m) := by
      rw [getD_zipWith _ _ _ i 0 0 0 (by simpa using hi) (by simpa using hi),
        hgetP, hgetM, hminVal]
    have hle : m ≤ freScore ((st.pca_models_per_class.find?
        (fun pr => pr.1 == some (items[i]).predicted_label)).getD
          (none, fun _ => 0)).2 (items[i]).feature_vector :=
      hmLe _ hpredMem
    have heps : (0 : α) < 1 / 100000000 := by positivity
    refine ⟨⟨?_, ?_⟩, ?_, ?_, ?_, ?_⟩
    · rw [hgetM, hminVal]; exact hmMem
    · intro y hy; rw [hgetM, hminVal]; exact hmLe y hy
    · rw [hgetP]; exact hpredMem
    · rw [hzip, hgetP, hgetM, hminVal]; ring
    · rw [hzip]
      exact le_add_of_nonneg_right (by linarith)
    · rw [hzip]
      have : (0 : α) < 1 / 100000000 +
          (freScore ((st.pca_models_per_class.find?
            (fun pr => pr.1 == some (items[i]).predicted_label)).getD
              (none, fun _ => 0)).2 (items[i]).feature_vector - m) := by
        linarith
      exact this.ne'

/-- Witness for C5 at a concrete two-class model and one query item. -/
theorem claim_C5_witness :
    exceptIsOk (classFREForward
      ({ n_components := 995 / 1000,
         pca_models_per_class :=
           [(some "cat", fun _ => (3 : ℚ)), (some "dog", fun _ => (7 : ℚ))] } :
        ClassFREData Unit ℚ)
      true [sampleItem "cat" (some "cat") 1]) = true := by
  obtain ⟨predL, minL, h1, -, -, -⟩ := claim_C5
    ({ n_components := 995 / 1000,
       pca_models_per_class :=
         [(some "cat", fun _ => (3 : ℚ)), (some "dog", fun _ => (7 : ℚ))] } :
      ClassFREData Unit ℚ)
    [sampleItem "cat" (some "cat") 1]
    (by simp)
    (by intro x hx; simp at hx; subst hx; rfl)
  rw [h1]
  rfl

theorem sumSqR_map_div (c : ℝ) :
    ∀ v : List ℚ,
      sumSqR (v.map (fun x : ℚ => (x : ℝ) / c)) =
        ((sumSq v : ℚ) : ℝ) / (c * c)
  | [] => by simp [sumSqR, sumSq]
  | x :: xs => by
    have ih := sumSqR_map_div c xs
    simp only [List.map_cons, sumSqR, sumSq, ih]
    rw [div_mul_div_comm, div_add_div_same,
      show ((x * x + sumSq xs : ℚ) : ℝ) =
        (x : ℝ) * (x : ℝ) + ((sumSq xs : ℚ) : ℝ) by push_cast; ring]

/-- C10 (implicit): the constructed `DistributionDataItem` stores the top-1
probability as a 1-element tuple (a list of length one), while
`predicted_label` is a plain string; the max-probability sub-model's
emitted `max_softmax_probability` score nevertheless equals the underlying
scalar top-1 probability, because scoring unboxes the first tuple element. -/
theorem claim_C10 (p : Prediction ℚ) (a : Annot ℚ) (lb : PredLabel ℚ)
    (mn ip al : Option String) (pu : Option DistributionDataItemPurpose)
    (ha : p.annotations.get? 0 = some a)
    (hl : a.labels.get? 0 = some lb)
    (hnz : sumSq p.feature_vector ≠ 0) :
    (exceptOk? (DistributionDataItem.init p mn ip al true pu)).map
        (fun it => it.max_prediction_probability) = some [lb.probability] ∧
    (exceptOk? (DistributionDataItem.init p mn ip al true pu)).map
        (fun it => it.max_prediction_probability.length) = some 1 ∧
    (exceptOk? (DistributionDataItem.init p mn ip al true pu)).map
        (fun it => it.predicted_label) = some lb.name ∧
    (exceptOk? (DistributionDataItem.init p mn ip al true pu)).map
        (fun it => probForward [it]) =
      some (.ok [("max_softmax_probability", [lb.probability])]) := by
  have hinit : DistributionDataItem.init p mn ip al true pu =
      .ok { media_name := mn, image_path := ip, annotated_label := al,
            purpose := pu,
            feature_vector := p.feature_vector.map (fun x : ℚ => (x : ℝ) /
              Real.sqrt ((sumSq p.feature_vector : ℚ) : ℝ)),
            max_prediction_probability := [lb.probability],
            predicted_label := lb.name } := by
    unfold DistributionDataItem.init
    rw [if_pos rfl]
    unfold normalise_features
    rw [if_neg hnz]
    simp only [exceptOkBind, ha, hl]
  rw [hinit]
  refine ⟨rfl, rfl, rfl, ?_⟩
  simp only [exceptOk?, Option.map_some']
  refine congrArg some ?_
  unfold probForward
  rw [listMapE_ok_of_forall probItemScore
    (fun it => it.max_prediction_probability.getD 0 0) _ ?_]
  · rfl
  · intro it hit
    simp only [List.mem_singleton] at hit
    subst hit
    rfl

/-- Witness for C10 at a concrete prediction. -/
theorem claim_C10_witness :
    (exceptOk? (DistributionDataItem.init
        { feature_vector := [1, 0],
          annotations := [{ labels := [{ name := "cat",
                                         probability := 9 / 10 }] }] }
        none none none true none)).map
      (fun it => it.max_prediction_probability) = some [(9 : ℚ) / 10] ∧
    (exceptOk? (DistributionDataItem.init
        { feature_vector := [1, 0],
          annotations := [{ labels := [{ name := "cat",
                                         probability := 9 / 10 }] }] }
        none none none true none)).map
      (fun it => it.predicted_label) = some "cat" := by
  obtain ⟨h1, -, h3, -⟩ := claim_C10
    { feature_vector := [1, 0],
      annotations := [{ labels := [{ name := "cat",
                                     probability := 9 / 10 }] }] }
    { labels := [{ name := "cat", probability := 9 / 10 }] }
    { name := "cat", probability := 9 / 10 }
    none none none none rfl rfl (by simp [sumSq])
  exact ⟨h1, h3⟩

/-- C8: `DistributionDataItem` construction with normalisation requested
divides the (flattened) feature vector by its L2 norm - the stored vector is
`v / sqrt(sum of squares of v)` and its squared L2 norm is 1 - and a
zero-norm feature vector is handled deterministically as an error rather
than silently stored as a NaN vector. -/
theorem claim_C8 (p q : Prediction ℚ) (a : Annot ℚ) (lb : PredLabel ℚ)
    (mn ip al mn2 ip2 al2 : Option String)
    (pu pu2 : Option DistributionDataItemPurpose)
    (ha : p.annotations.get? 0 = some a)
    (hl : a.labels.get? 0 = some lb)
    (hnz : sumSq p.feature_vector ≠ 0)
    (hz : sumSq q.feature_vector = 0) :
    (exceptOk? (DistributionDataItem.init p mn ip al true pu)).map
        (fun it => it.feature_vector) =
      some (p.feature_vector.map (fun x : ℚ => (x : ℝ) /
        Real.sqrt ((sumSq p.feature_vector : ℚ) : ℝ))) ∧
    (exceptOk? (DistributionDataItem.init p mn ip al true pu)).map
        (fun it => sumSqR it.feature_vector) = some 1 ∧
    DistributionDataItem.init q mn2 ip2 al2 true pu2 =
      .error (.valueError "zero-norm feature vector cannot be normalised") := by
  have hinit : DistributionDataItem.init p mn ip al true pu =
      .ok { media_name := mn, image_path := ip, annotated_label := al,
            purpose := pu,
            feature_vector := p.feature_vector.map (fun x : ℚ => (x : ℝ) /
              Real.sqrt ((sumSq p.feature_vector : ℚ) : ℝ)),
            max_prediction_probability := [lb.probability],
            predicted_label := lb.name } := by
    unfold DistributionDataItem.init
    rw [if_pos rfl]
    unfold normalise_features
    rw [if_neg hnz]
    simp only [exceptOkBind, ha, hl]
  rw [hinit]
  refine ⟨rfl, ?_, ?_⟩
  · simp only [exceptOk?, Option.map_some', Option.some.injEq]
    rw [sumSqR_map_div]
    have hsq : Real.sqrt ((sumSq p.feature_vector : ℚ) : ℝ) *
        Real.sqrt ((sumSq p.feature_vector : ℚ) : ℝ) =
        ((sumSq p.feature_vector : ℚ) : ℝ) :=
      Real.mul_self_sqrt (by exact_mod_cast sumSq_nonneg p.feature_vector)
    rw [hsq]
    rw [div_self (by exact_mod_cast hnz)]
  · unfold DistributionDataItem.init
    rw [if_pos rfl]
    unfold normalise_features
    rw [if_pos hz]
    simp only [exceptErrorBind]

/-- Witness for C8: a non-zero vector is stored normalised, a zero vector is
rejected. -/
theorem claim_C8_witness :
    (exceptOk? (DistributionDataItem.init
        { feature_vector := [1, 0],
          annotations := [{ labels := [{ name := "cat",
                                         probability := 9 / 10 }] }] }
        none none none true none)).map
      (fun it => sumSqR it.feature_vector) = some 1 ∧
    DistributionDataItem.init
        { feature_vector := [0, 0],
          annotations := [{ labels := [{ name := "cat",
                                         probability := 9 / 10 }] }] }
        none none none true none =
      .error (.valueError "zero-norm feature vector cannot be normalised") := by
  obtain ⟨-, h2, h3⟩ := claim_C8
    { feature_vector := [1, 0],
      annotations := [{ labels := [{ name := "cat",
                                     probability := 9 / 10 }] }] }
    { feature_vector := [0, 0],
      annotations := [{ labels := [{ name := "cat",
                                     probability := 9 / 10 }] }] }
    { labels := [{ name := "cat", probability := 9 / 10 }] }
    { name := "cat", probability := 9 / 10 }
    none none none none none none none none
    rfl rfl (by simp [sumSq]) (by simp [sumSq])
  exact ⟨h2, h3⟩

theorem shannonEntropy_nonneg (labels : List (Option String)) :
    0 ≤ shannonEntropy labels := by
  unfold shannonEntropy
  apply List.sum_nonneg
  intro x hx
  simp only [List.mem_map] at hx
  obtain ⟨a, ha, rfl⟩ := hx
  apply Real.negMulLog_nonneg
  · positivity
  · cases labels with
    | nil => simp at ha
    | cons b bs =>
      apply div_le_one_of_le₀
      · exact_mod_cast List.count_le_length a (b :: bs)
      · positivity

/-- C6: for every query item scored by the trained neighbour-based sub-model
(with the entropy helper modelled from the spec as Shannon entropy of the
neighbour label distribution), the emitted `entropy_score` equals the
Shannon entropy of the neighbour labels plus 1 - hence is at least 1 - and
`enwedi_score` (resp. `enwedi_nn_score`) equals `average_nn_distance`
(resp. `nn_distance`) times `entropy_score`, entry by entry. -/
theorem claim_C6 {V : Type}
    (sfn : List V → List V → Nat → List (List ℝ) × List (List Nat))
    (st : KNNData V) (items : List (DistributionDataItem V ℝ))
    (index : List V) (train_labels : List (Option String))
    (D : List (List ℝ)) (I : List (List Nat))
    (hidx : st.knn_search_index = some index)
    (hlab : st.train_set_labels = some train_labels)
    (hD : (sfn index (items.map (fun it => it.feature_vector))
      st.knn_k).1 = D)
    (hI : (sfn index (items.map (fun it => it.feature_vector))
      st.knn_k).2 = I)
    (hrows : ∀ row ∈ D, 2 ≤ row.length) :
    knnForward sfn calculate_entropy_nearest_neighbours st items =
      .ok [("knn_distance", D.map (fun r => r.getLastD 0)),
           ("nn_distance", D.map (fun r => r.getD 1 0)),
           ("average_nn_distance",
            D.map (fun r => (r.drop 1).sum / ((r.drop 1).length : ℝ))),
           ("entropy_score",
            I.map (fun r => calculate_entropy_nearest_neighbours
              train_labels r st.knn_k + 1)),
           ("enwedi_score",
            List.zipWith (fun d s => d * s)
              (D.map (fun r => (r.drop 1).sum / ((r.drop 1).length : ℝ)))
              (I.map (fun r => calculate_entropy_nearest_neighbours
                train_labels r st.knn_k + 1))),
           ("enwedi_nn_score",
            List.zipWith (fun d s => d * s)
              (D.map (fun r => r.getD 1 0))
              (I.map (fun r => calculate_entropy_nearest_neighbours
                train_labels r st.knn_k + 1)))] ∧
    (∀ i, i < I.length →
      (I.map (fun r => calculate_entropy_nearest_neighbours
          train_labels r st.knn_k + 1)).getD i 1 =
        shannonEntropy ((I.getD i []).map
          (fun j => train_labels.getD j none)) + 1 ∧
      1 ≤ (I.map (fun r => calculate_entropy_nearest_neighbours
          train_labels r st.knn_k + 1)).getD i 1) ∧
    (∀ i, i < D.length → i < I.length →
      (List.zipWith (fun d s => d * s)
          (D.map (fun r => (r.drop 1).sum / ((r.drop 1).length : ℝ)))
          (I.map (fun r => calculate_entropy_nearest_neighbours
            train_labels r st.knn_k + 1))).getD i 0 =
        (D.map (fun r => (r.drop 1).sum /
          ((r.drop 1).length : ℝ))).getD i 0 *
        (I.map (fun r => calculate_entropy_nearest_neighbours
          train_labels r st.knn_k + 1)).getD i 1 ∧
      (List.zipWith (fun d s => d * s)
          (D.map (fun r => r.getD 1 0))
          (I.map (fun r => calculate_entropy_nearest_neighbours
            train_labels r st.knn_k + 1))).getD i 0 =
        (D.map (fun r => r.getD 1 0)).getD i 0 *
        (I.map (fun r => calculate_entropy_nearest_neighbours
          train_labels r st.knn_k + 1)).getD i 1) := by
  have hA : listMapE rowLastDistance D =
      .ok (D.map (fun r => r.getLastD 0)) := by
    apply listMapE_ok_of_forall
    intro row hrow
    unfold rowLastDistance
    cases hgl : row.getLast? with
    | none =>
      rw [List.getLast?_eq_none_iff] at hgl
      subst hgl
      simp at hrow
      exact absurd (hrows [] hrow) (by simp)
    | some d =>
      rw [List.getLastD_eq_getLast?, hgl]
      rfl
  have hB : listMapE rowSecondDistance D =
      .ok (D.map (fun r => r.getD 1 0)) := by
    apply listMapE_ok_of_forall
    intro row hrow
    unfold rowSecondDistance
    cases hg : row.get? 1 with
    | none =>
      rw [List.get?_eq_none] at hg
      exact absurd (hrows row hrow) (by omega)
    | some d =>
      rw [List.getD_eq_getElem?_getD, ← List.get?_eq_getElem?, hg]
      rfl
  have hC : listMapE rowMeanRest D =
      .ok (D.map (fun r =>
        (r.drop 1).sum / ((r.drop 1).length : ℝ))) := by
    apply listMapE_ok_of_forall
    intro row hrow
    unfold rowMeanRest
    rw [if_neg]
    have := hrows row hrow
    simp only [List.length_drop]
    omega
  refine ⟨?_, ?_, ?_⟩
  · unfold knnForward
    simp only [hidx, hlab, hD, hI, hA, hB, hC, List.map_map]
    rfl
  · intro i hi
    constructor
    · rw [getD_map _ I i [] 1 hi]
      rfl
    · rw [getD_map _ I i [] 1 hi]
      have := shannonEntropy_nonneg
        ((I.getD i []).map (fun j => train_labels.getD j none))
      unfold calculate_entropy_nearest_neighbours
      linarith
  · intro i hiD hiI
    constructor
    · rw [getD_zipWith _ _ _ i 0 1 0 (by simpa using hiD)
        (by simpa using hiI)]
    · rw [getD_zipWith _ _ _ i 0 1 0 (by simpa using hiD)
        (by simpa using hiI)]

/-- Witness for C6 at a concrete trained kNN state, search result and single
query item. -/
theorem claim_C6_witness :
    exceptIsOk (knnForward (fun _ _ _ => ([[(1 : ℝ), 2]], [[0, 1]]))
      calculate_entropy_nearest_neighbours
      ({ knn_k := 2, knn_search_index := some [()],
         train_set_labels := some [some "a", some "b"] } : KNNData Unit)
      [{ media_name := none, image_path := none,
         annotated_label := some "a", purpose := none,
         feature_vector := (), max_prediction_probability := [1],
         predicted_label := "a" }]) = true ∧
    1 ≤ (([[0, 1]] : List (List Nat)).map
        (fun r => calculate_entropy_nearest_neighbours
          [some "a", some "b"] r 2 + 1)).getD 0 1 := by
  obtain ⟨h1, h2, -⟩ := claim_C6
    (fun _ _ _ => ([[(1 : ℝ), 2]], [[0, 1]]))
    ({ knn_k := 2, knn_search_index := some [()],
       train_set_labels := some [some "a", some "b"] } : KNNData Unit)
    [{ media_name := none, image_path := none,
       annotated_label := some "a", purpose := none,
       feature_vector := (), max_prediction_probability := [1],
       predicted_label := "a" }]
    [()] [some "a", some "b"] [[1, 2]] [[0, 1]]
    rfl rfl rfl rfl
    (by intro row hr; simp at hr; subst hr; simp)
  exact ⟨by rw [h1]; rfl, (h2 0 (by decide)).2⟩

/-- The fixed score names each sub-model variant emits on success (the keys
of the dict literals returned by the four `forward` methods, in source
order). -/
def subModelKeys : OODSubModel V α → List String
  | ⟨_, .knn _⟩ =>
    ["knn_distance", "nn_distance", "average_nn_distance",
     "entropy_score", "enwedi_score", "enwedi_nn_score"]
  | ⟨_, .classFre _⟩ =>
    ["min_class_fre_score", "predicted_class_fre_score",
     "diff_min_and_predicted_class_fre"]
  | ⟨_, .globalFre _⟩ => ["global_fre_score"]
  | ⟨_, .prob⟩ => ["max_softmax_probability"]

theorem probForward_ok_keys [LinearOrderedField α]
    (items : List (DistributionDataItem V α)) (s : Scores α)
    (h : probForward items = .ok s) :
    s.map Prod.fst = ["max_softmax_probability"] := by
  unfold probForward at h
  split at h
  · cases h
  · cases h; rfl

theorem globalFREForward_ok_keys [LinearOrderedField α]
    (st : GlobalFREData V α) (flag : Bool)
    (items : List (DistributionDataItem V α)) (s : Scores α)
    (h : globalFREForward st flag items = .ok s) :
    s.map Prod.fst = ["global_fre_score"] := by
  unfold globalFREForward at h
  split at h
  · cases h
  · split at h
    · cases h
    · cases h; rfl

theorem classFREForward_ok_keys [LinearOrderedField α]
    (st : ClassFREData V α) (flag : Bool)
    (items : List (DistributionDataItem V α)) (s : Scores α)
    (h : classFREForward st flag items = .ok s) :
    s.map Prod.fst =
      ["min_class_fre_score", "predicted_class_fre_score",
       "diff_min_and_predicted_class_fre"] := by
  unfold classFREForward at h
  split at h
  · cases h
  · split at h
    · cases h
    · split at h
      · cases h
      · cases h; rfl

theorem knnForward_ok_keys [LinearOrderedField α]
    (sfn : List V → List V → Nat → List (List α) × List (List Nat))
    (efn : List (Option String) → List Nat → Nat → α)
    (st : KNNData V) (items : List (DistributionDataItem V α))
    (s : Scores α) (h : knnForward sfn efn st items = .ok s) :
    s.map Prod.fst =
      ["knn_distance", "nn_distance", "average_nn_distance",
       "entropy_score", "enwedi_score", "enwedi_nn_score"] := by
  unfold knnForward at h
  split at h
  · cases h
  · cases h
  · split at h
    · cases h
    · split at h
      · cases h
      · split at h
        · cases h
        · cases h; rfl

theorem call_ok_keys [LinearOrderedField α]
    (sfn : List V → List V → Nat → List (List α) × List (List Nat))
    (efn : List (Option String) → List Nat → Nat → α)
    (m : OODSubModel V α) (items : List (DistributionDataItem V α))
    (s : Scores α) (h : m.call sfn efn items = .ok s) :
    s.map Prod.fst = subModelKeys m := by
  obtain ⟨flag, data⟩ := m
  unfold OODSubModel.call at h
  split at h
  · unfold OODSubModel.forwardD at h
    cases data with
    | knn st => exact knnForward_ok_keys sfn efn st items s h
    | classFre st => exact classFREForward_ok_keys st flag items s h
    | globalFre st => exact globalFREForward_ok_keys st flag items s h
    | prob => exact probForward_ok_keys items s h
  · cases h

/-- The key list produced by folding one dict into another with Python
update semantics: existing keys keep their position, new keys are appended
in order. -/
def keysMerge (ks new : List String) : List String :=
  new.foldl (fun acc k => if k ∈ acc then acc else acc ++ [k]) ks

theorem updateOrAppend_keys (acc : Scores α) (kv : String × List α) :
    (updateOrAppend acc kv).map Prod.fst =
      if kv.1 ∈ acc.map Prod.fst then acc.map Prod.fst
      else acc.map Prod.fst ++ [kv.1] := by
  unfold updateOrAppend
  have hcond : (acc.any (fun p => p.1 == kv.1)) =
      decide (kv.1 ∈ acc.map Prod.fst) := by
    cases hb : acc.any (fun p => p.1 == kv.1) with
    | false =>
      have hnot : ¬ kv.1 ∈ acc.map Prod.fst := by
        intro hmem
        obtain ⟨p, hp, hfst⟩ := List.mem_map.mp hmem
        have hT : acc.any (fun p => p.1 == kv.1) = true :=
          List.any_eq_true.mpr ⟨p, hp, by simp [hfst]⟩
        rw [hb] at hT
        cases hT
      simp [hnot]
    | true =>
      obtain ⟨p, hp, hbeq⟩ := List.any_eq_true.mp hb
      have hmem : kv.1 ∈ acc.map Prod.fst :=
        List.mem_map.mpr ⟨p, hp, by simpa using hbeq⟩
      simp [hmem]
  rw [hcond]
  by_cases hmem : kv.1 ∈ acc.map Prod.fst
  · rw [if_pos (by simp [hmem]), if_pos hmem, List.map_map]
    apply List.map_congr_left
    intro p _
    by_cases hp : p.1 == kv.1
    · simp only [Function.comp]
      rw [if_pos hp]
    · simp only [Function.comp]
      rw [if_neg hp]
  · rw [if_neg (by simp [hmem]), if_neg hmem]
    simp

theorem mergeScores_keys (s : Scores α) :
    ∀ acc : Scores α,
      (mergeScores acc s).map Prod.fst =
        keysMerge (acc.map Prod.fst) (s.map Prod.fst) := by
  induction s with
  | nil => intro acc; rfl
  | cons kv rest ih =>
    intro acc
    show (mergeScores (updateOrAppend acc kv) rest).map Prod.fst = _
    rw [ih (updateOrAppend acc kv), updateOrAppend_keys]
    unfold keysMerge
    simp only [List.map_cons, List.foldl_cons]

theorem keysMerge_nodup (new : List String) :
    ∀ ks : List String, ks.Nodup → (keysMerge ks new).Nodup := by
  induction new with
  | nil => intro ks h; exact h
  | cons k rest ih =>
    intro ks h
    unfold keysMerge
    simp only [List.foldl_cons]
    by_cases hk : k ∈ ks
    · rw [if_pos hk]
      exact ih ks h
    · rw [if_neg hk]
      refine ih (ks ++ [k]) ?_
      simp [List.nodup_append, h, hk]

theorem inferSubModelsGo_keys [LinearOrderedField α]
    (sfn : List V → List V → Nat → List (List α) × List (List Nat))
    (efn : List (Option String) → List Nat → Nat → α) :
    ∀ (sms : List (String × OODSubModel V α))
      (items1 items2 : List (DistributionDataItem V α))
      (acc1 acc2 s1 s2 : Scores α),
      inferSubModelsGo sfn efn sms items1 acc1 = .ok s1 →
      inferSubModelsGo sfn efn sms items2 acc2 = .ok s2 →
      acc1.map Prod.fst = acc2.map Prod.fst →
      s1.map Prod.fst = s2.map Prod.fst := by
  intro sms
  induction sms with
  | nil =>
    intro items1 items2 acc1 acc2 s1 s2 h1 h2 hacc
    unfold inferSubModelsGo at h1 h2
    cases h1; cases h2; exact hacc
  | cons nm rest ih =>
    intro items1 items2 acc1 acc2 s1 s2 h1 h2 hacc
    obtain ⟨name, m⟩ := nm
    unfold inferSubModelsGo at h1 h2
    cases hc1 : m.call sfn efn items1 with
    | error e => rw [hc1] at h1; cases h1
    | ok d1 =>
      rw [hc1] at h1
      cases hc2 : m.call sfn efn items2 with
      | error e => rw [hc2] at h2; cases h2
      | ok d2 =>
        rw [hc2] at h2
        refine ih items1 items2 _ _ s1 s2 h1 h2 ?_
        rw [mergeScores_keys, mergeScores_keys, hacc,
          call_ok_keys sfn efn m items1 d1 hc1,
          call_ok_keys sfn efn m items2 d2 hc2]

theorem inferSubModelsGo_keys_nodup [LinearOrderedField α]
    (sfn : List V → List V → Nat → List (List α) × List (List Nat))
    (efn : List (Option String) → List Nat → Nat → α) :
    ∀ (sms : List (String × OODSubModel V α))
      (items : List (DistributionDataItem V α)) (acc s : Scores α),
      inferSubModelsGo sfn efn sms items acc = .ok s →
      (acc.map Prod.fst).Nodup → (s.map Prod.fst).Nodup := by
  intro sms
  induction sms with
  | nil =>
    intro items acc s h hacc
    unfold inferSubModelsGo at h
    cases h; exact hacc
  | cons nm rest ih =>
    intro items acc s h hacc
    obtain ⟨name, m⟩ := nm
    unfold inferSubModelsGo at h
    cases hc : m.call sfn efn items with
    | error e => rw [hc] at h; cases h
    | ok d =>
      rw [hc] at h
      refine ih items _ s h ?_
      rw [mergeScores_keys]
      exact keysMerge_nodup _ _ hacc

theorem aggregateScores_entry [LinearOrderedField α] (scores : Scores α)
    (n i j : Nat) (hi : i < n) (hj : j < scores.length) :
    ((aggregateScores scores n).getD i []).getD j 0 =
      ((scores.getD j ("", [])).2).getD i 0 := by
  unfold aggregateScores
  rw [getD_map _ (List.range n) i 0 [] (by simpa using hi)]
  rw [getD_map _ scores j ("", []) 0 hj]
  congr 1
  rw [List.getD_eq_getElem (List.range n) 0 (by simpa using hi)]
  simp

/-- C2: feature aggregation is deterministic and order-stable.  For any
fixed registry of (trained) sub-models, whenever score collection succeeds
on two item lists - e.g. at training time over the TRAIN items and at any
later inference call over one item - the resulting score dicts carry the
same score names at the same positions; the names are pairwise distinct
(so the number of columns is the number of distinct score names), and the
aggregated `n × m` matrix holds, in column `j` of row `i`, the `i`-th entry
of the `j`-th score array. -/
theorem claim_C2 {V α : Type} [LinearOrderedField α]
    (sfn : List V → List V → Nat → List (List α) × List (List Nat))
    (efn : List (Option String) → List Nat → Nat → α)
    (sub_models : List (String × OODSubModel V α))
    (items1 items2 : List (DistributionDataItem V α)) (s1 s2 : Scores α)
    (h1 : inferSubModels sfn efn sub_models items1 = .ok s1)
    (h2 : inferSubModels sfn efn sub_models items2 = .ok s2) :
    s1.map Prod.fst = s2.map Prod.fst ∧
    (s1.map Prod.fst).Nodup ∧
    s1.length = (s1.map Prod.fst).dedup.length ∧
    (∀ n i j, i < n → j < s1.length →
      ((aggregateScores s1 n).getD i []).getD j 0 =
        ((s1.getD j ("", [])).2).getD i 0) := by
  have hkeys := inferSubModelsGo_keys sfn efn sub_models items1 items2
    [] [] s1 s2 h1 h2 rfl
  have hnodup := inferSubModelsGo_keys_nodup sfn efn sub_models items1
    [] s1 h1 (by simp)
  refine ⟨hkeys, hnodup, ?_, ?_⟩
  · rw [List.dedup_eq_self.mpr hnodup]
    simp
  · intro n i j hi hj
    exact aggregateScores_entry s1 n i j hi hj

/-- Witness for C2: the actual sub-model registry of `COODModel.__init__`,
trained on one item, scores a 1-item list and a 2-item list with the same
score names in the same column order. -/
theorem claim_C2_witness :
    (exceptOk? (inferSubModels
        (fun _ _ _ => ([[(0 : ℚ), 0]], [[0, 0]]))
        (fun _ _ _ => (0 : ℚ))
        (trainSubModels (fun _ _ => fun _ => (0 : ℚ))
          (COODModel.sub_models (V := Unit) (α := ℚ))
          [sampleItem "a" (some "a") 1])
        [sampleItem "a" (some "a") 1])).map
      (fun s => s.map Prod.fst) =
    (exceptOk? (inferSubModels
        (fun _ _ _ => ([[(0 : ℚ), 0]], [[0, 0]]))
        (fun _ _ _ => (0 : ℚ))
        (trainSubModels (fun _ _ => fun _ => (0 : ℚ))
          (COODModel.sub_models (V := Unit) (α := ℚ))
          [sampleItem "a" (some "a") 1])
        [sampleItem "a" (some "a") 1,
         sampleItem "a" (some "a") 1])).map
      (fun s => s.map Prod.fst) ∧
    exceptIsOk (inferSubModels
        (fun _ _ _ => ([[(0 : ℚ), 0]], [[0, 0]]))
        (fun _ _ _ => (0 : ℚ))
        (trainSubModels (fun _ _ => fun _ => (0 : ℚ))
          (COODModel.sub_models (V := Unit) (α := ℚ))
          [sampleItem "a" (some "a") 1])
        [sampleItem "a" (some "a") 1]) = true := by
  obtain ⟨s1, h1⟩ : ∃ s, inferSubModels
      (fun _ _ _ => ([[(0 : ℚ), 0]], [[0, 0]]))
      (fun _ _ _ => (0 : ℚ))
      (trainSubModels (fun _ _ => fun _ => (0 : ℚ))
        (COODModel.sub_models (V := Unit) (α := ℚ))
        [sampleItem "a" (some "a") 1])
      [sampleItem "a" (some "a") 1] = .ok s := ⟨_, rfl⟩
  obtain ⟨s2, h2⟩ : ∃ s, inferSubModels
      (fun _ _ _ => ([[(0 : ℚ), 0]], [[0, 0]]))
      (fun _ _ _ => (0 : ℚ))
      (trainSubModels (fun _ _ => fun _ => (0 : ℚ))
        (COODModel.sub_models (V := Unit) (α := ℚ))
        [sampleItem "a" (some "a") 1])
      [sampleItem "a" (some "a") 1,
       sampleItem "a" (some "a") 1] = .ok s := ⟨_, rfl⟩
  obtain ⟨hkeys, -, -, -⟩ := claim_C2 _ _ _ _ _ s1 s2 h1 h2
  rw [h1, h2]
  exact ⟨by simp only [exceptOk?, Option.map_some', hkeys], rfl⟩

theorem getD_append_left (l1 l2 : List γ) (i : Nat) (d : γ)
    (h : i < l1.length) : (l1 ++ l2).getD i d = l1.getD i d := by
  rw [List.getD_eq_getElem?_getD, List.getD_eq_getElem?_getD,
    List.getElem?_append, if_pos h]

theorem getD_append_right (l1 l2 : List γ) (i : Nat) (d : γ)
    (h : l1.length ≤ i) :
    (l1 ++ l2).getD i d = l2.getD (i - l1.length) d := by
  rw [List.getD_eq_getElem?_getD, List.getD_eq_getElem?_getD,
    List.getElem?_append_right h]

theorem getD_replicate (n i : Nat) (a d : γ) (h : i < n) :
    (List.replicate n a).getD i d = a := by
  rw [List.getD_eq_getElem?_getD, List.getElem?_replicate, if_pos h]
  rfl

theorem aggregateScores_length [LinearOrderedField α] (scores : Scores α)
    (n : Nat) : (aggregateScores scores n).length = n := by
  unfold aggregateScores
  simp

/-- C1: `COODModel._train` builds the meta-classifier training set by
row-wise concatenating the ID feature matrix followed by the OOD feature
matrix - row `i` of the combined matrix is row `i` of the ID matrix for
`i < nId` and row `i - nId` of the OOD matrix afterwards - with label 0
for every ID row and label 1 for every OOD row; and `COODModel.__call__`
on a single prediction wraps it into one data item, aggregates the
sub-model scores into a 1-row feature matrix and returns the fitted
classifier's predicted probability for class index 1
(`predict_proba(...)[0][1]`). -/
theorem claim_C1 {Cls : Type}
    (fit : List (List ℚ) → List ℚ → Cls)
    (predict_proba : Cls → List (List ℚ) → List (List ℚ))
    (fitPCA : List (List ℝ) → ℚ → (List ℝ → ℚ))
    (sfn : List (List ℝ) → List (List ℝ) → Nat →
      List (List ℚ) × List (List Nat))
    (efn : List (Option String) → List Nat → Nat → ℚ)
    (sub_models : List (String × OODSubModel (List ℝ) ℚ))
    (train_id_data train_ood_data : List (DistributionDataItem (List ℝ) ℚ))
    (sId sOod : Scores ℚ)
    (hid : inferSubModels sfn efn
      (trainSubModels fitPCA sub_models train_id_data) train_id_data =
        .ok sId)
    (hood : inferSubModels sfn efn
      (trainSubModels fitPCA sub_models train_id_data) train_ood_data =
        .ok sOod)
    (cls : Cls) (prediction : Prediction ℚ)
    (item : DistributionDataItem (List ℝ) ℚ)
    (scores1 : Scores ℚ) (row : List ℚ) (pOOD : ℚ)
    (hinit : DistributionDataItem.init prediction (some "sample")
      (some "sample") (some "") true none = .ok item)
    (hinf1 : inferSubModels sfn efn sub_models [item] = .ok scores1)
    (hrow : (predict_proba cls (aggregateScores scores1 1)).get? 0 =
      some row)
    (hcol : row.get? 1 = some pOOD) :
    COOD_train fit fitPCA sfn efn sub_models train_id_data train_ood_data =
      .ok (fit (aggregateScores sId train_id_data.length ++
                aggregateScores sOod train_ood_data.length)
             (List.replicate train_id_data.length (0 : ℚ) ++
              List.replicate train_ood_data.length (1 : ℚ)),
           trainSubModels fitPCA sub_models train_id_data) ∧
    (List.replicate train_id_data.length (0 : ℚ) ++
      List.replicate train_ood_data.length (1 : ℚ)).length =
      (aggregateScores sId train_id_data.length ++
        aggregateScores sOod train_ood_data.length).length ∧
    (∀ i, i < train_id_data.length →
      (List.replicate train_id_data.length (0 : ℚ) ++
        List.replicate train_ood_data.length (1 : ℚ)).getD i 2 = 0 ∧
      (aggregateScores sId train_id_data.length ++
        aggregateScores sOod train_ood_data.length).getD i [] =
        (aggregateScores sId train_id_data.length).getD i []) ∧
    (∀ i, train_id_data.length ≤ i →
      i < train_id_data.length + train_ood_data.length →
      (List.replicate train_id_data.length (0 : ℚ) ++
        List.replicate train_ood_data.length (1 : ℚ)).getD i 2 = 1 ∧
      (aggregateScores sId train_id_data.length ++
        aggregateScores sOod train_ood_data.length).getD i [] =
        (aggregateScores sOod train_ood_data.length).getD
          (i - train_id_data.length) []) ∧
    COOD_call predict_proba sfn efn cls sub_models prediction =
      .ok pOOD := by
  refine ⟨?_, ?_, ?_, ?_, ?_⟩
  · unfold COOD_train
    simp only [hid, hood]
  · simp [aggregateScores_length]
  · intro i hi
    constructor
    · rw [getD_append_left _ _ _ _ (by simpa using hi)]
      exact getD_replicate _ _ _ _ hi
    · rw [getD_append_left _ _ _ _
        (by rw [aggregateScores_length]; exact hi)]
  · intro i hlow hhigh
    constructor
    · rw [getD_append_right _ _ _ _ (by simpa using hlow)]
      rw [List.length_replicate]
      exact getD_replicate _ _ _ _ (by omega)
    · rw [getD_append_right _ _ _ _
        (by rw [aggregateScores_length]; exact hlow)]
      rw [aggregateScores_length]
  · unfold COOD_call
    simp only [hinit, hinf1, hrow, hcol]

/-- The data item `COODModel.__call__` builds for the witness prediction
(feature vector `[1, 0]`, one label `"a"` with probability 1). -/
noncomputable def c1Item : DistributionDataItem (List ℝ) ℚ :=
  { media_name := some "sample", image_path := some "sample",
    annotated_label := some "", purpose := none,
    feature_vector := ([1, 0] : List ℚ).map
      (fun x : ℚ => (x : ℝ) / Real.sqrt ((sumSq [1, 0] : ℚ) : ℝ)),
    max_prediction_probability := [1], predicted_label := "a" }

/-- Witness for C1 at a concrete classifier, registry and prediction. -/
theorem claim_C1_witness :
    COOD_call (fun _ _ => [[1 / 4, 3 / 4]]) (fun _ _ _ => ([], []))
      (fun _ _ _ => (0 : ℚ)) ()
      [("max_softmax_probability",
        ({ _is_trained := true, data := .prob } :
          OODSubModel (List ℝ) ℚ))]
      { feature_vector := [1, 0],
        annotations := [{ labels := [{ name := "a",
                                       probability := 1 }] }] } =
      .ok (3 / 4) ∧
    exceptIsOk (COOD_train (fun _ _ => ()) (fun _ _ => fun _ => (0 : ℚ))
      (fun _ _ _ => ([], [])) (fun _ _ _ => (0 : ℚ))
      [("max_softmax_probability",
        ({ _is_trained := true, data := .prob } :
          OODSubModel (List ℝ) ℚ))] [] []) = true := by
  have hinit : DistributionDataItem.init
      { feature_vector := [1, 0],
        annotations := [{ labels := [{ name := "a",
                                       probability := 1 }] }] }
      (some "sample") (some "sample") (some "") true none =
      .ok c1Item := by
    unfold DistributionDataItem.init
    rw [if_pos rfl]
    unfold normalise_features
    rw [if_neg (by simp [sumSq])]
    simp only [exceptOkBind]
    rfl
  obtain ⟨sId, hid⟩ : ∃ s, inferSubModels (fun _ _ _ => ([], []))
      (fun _ _ _ => (0 : ℚ))
      (trainSubModels (fun _ _ => fun _ => (0 : ℚ))
        [("max_softmax_probability",
          ({ _is_trained := true, data := .prob } :
            OODSubModel (List ℝ) ℚ))] [])
      [] = .ok s := ⟨_, rfl⟩
  obtain ⟨s1, hinf1⟩ : ∃ s, inferSubModels (fun _ _ _ => ([], []))
      (fun _ _ _ => (0 : ℚ))
      [("max_softmax_probability",
        ({ _is_trained := true, data := .prob } :
          OODSubModel (List ℝ) ℚ))]
      [c1Item] = .ok s := ⟨_, rfl⟩
  obtain ⟨h1, -, -, -, h5⟩ := claim_C1 (fun _ _ => ())
    (fun _ _ => [[1 / 4, 3 / 4]]) (fun _ _ => fun _ => (0 : ℚ))
    (fun _ _ _ => ([], [])) (fun _ _ _ => (0 : ℚ))
    [("max_softmax_probability",
      ({ _is_trained := true, data := .prob } :
        OODSubModel (List ℝ) ℚ))]
    [] [] sId sId hid hid ()
    { feature_vector := [1, 0],
      annotations := [{ labels := [{ name := "a", probability := 1 }] }] }
    c1Item s1 [1 / 4, 3 / 4] (3 / 4) hinit hinf1 rfl rfl
  exact ⟨h5, by rw [h1]; rfl⟩

theorem classIndices_mem (labels : List (Option String))
    (label : Option String) (i : Nat) :
    i ∈ classIndices labels label ↔
      i < labels.length ∧ labels.getD i none = label := by
  unfold classIndices
  simp [List.mem_filter]

theorem classIndices_nodup (labels : List (Option String))
    (label : Option String) : (classIndices labels label).Nodup :=
  List.Nodup.filter _ (List.nodup_range _)

theorem perClassTrainCount_bounds (fraction : ℚ) (c : Nat) (hc : 2 ≤ c) :
    1 ≤ perClassTrainCount fraction c ∧
    perClassTrainCount fraction c ≤ c - 1 := by
  unfold perClassTrainCount
  rw [if_neg (by omega)]
  omega

theorem assignPurpose_length (sel : List Nat) :
    ∀ (l : List (DistributionDataItem V α)) (i0 : Nat),
      (assignPurpose sel i0 l).length = l.length
  | [], _ => rfl
  | it :: rest, i0 => by
    show (assignPurpose sel (i0 + 1) rest).length + 1 = rest.length + 1
    rw [assignPurpose_length sel rest (i0 + 1)]

theorem assignPurpose_get (sel : List Nat) :
    ∀ (l : List (DistributionDataItem V α)) (i0 j : Nat)
      (h : j < (assignPurpose sel i0 l).length) (h2 : j < l.length),
      (assignPurpose sel i0 l).get ⟨j, h⟩ =
        { l.get ⟨j, h2⟩ with
          purpose := some (if (i0 + j) ∈ sel then .TRAIN else .TEST) }
  | [], _, j, h, h2 => by cases h2
  | it :: rest, i0, 0, h, h2 => by simp [assignPurpose]
  | it :: rest, i0, j + 1, h, h2 => by
    have h2x : j < rest.length := by simpa using h2
    show (assignPurpose sel (i0 + 1) rest).get ⟨j, _⟩ = _
    rw [assignPurpose_get sel rest (i0 + 1) j
      (by rw [assignPurpose_length]; exact h2x) h2x]
    have hidx : i0 + 1 + j = i0 + (j + 1) := by omega
    rw [hidx]
    rfl

theorem assignTrainTestPurpose_get (sel : List Nat)
    (data : List (DistributionDataItem V α)) (j : Nat)
    (h : j < (assignTrainTestPurpose data sel).length) (h2 : j < data.length) :
    (assignTrainTestPurpose data sel).get ⟨j, h⟩ =
      { data.get ⟨j, h2⟩ with
        purpose := some (if j ∈ sel then .TRAIN else .TEST) } := by
  unfold assignTrainTestPurpose
  rw [assignPurpose_get sel data 0 j h h2]
  simp

theorem filter_flatMap_nil (p : Nat → Bool) (g : γ → List Nat) :
    ∀ L : List γ, (∀ a ∈ L, (g a).filter p = []) →
      (L.flatMap g).filter p = []
  | [], _ => rfl
  | a :: L, h => by
    rw [List.flatMap_cons, List.filter_append, h a (by simp),
      filter_flatMap_nil p g L (fun b hb => h b (by simp [hb]))]
    rfl

theorem filter_flatMap_single (p : Nat → Bool) (g : γ → List Nat)
    (ℓ : γ) : ∀ L : List γ, ℓ ∈ L → L.Nodup →
      (∀ a ∈ L, a ≠ ℓ → (g a).filter p = []) →
      (g ℓ).filter p = g ℓ →
      (L.flatMap g).filter p = g ℓ
  | [], hmem, _, _, _ => by cases hmem
  | a :: L, hmem, hnd, hother, hself => by
    rw [List.flatMap_cons, List.filter_append]
    rcases List.mem_cons.mp hmem with rfl | hmem2
    · rw [hself, filter_flatMap_nil p g L
        (fun b hb => hother b (by simp [hb])
          (fun hba => ((List.nodup_cons.mp hnd).1 (hba ▸ hb)).elim))]
      simp
    · rw [hother a (by simp) (fun hha => by
        subst hha
        exact (List.nodup_cons.mp hnd).1 hmem2),
        filter_flatMap_single p g ℓ L hmem2 (List.nodup_cons.mp hnd).2
          (fun b hb => hother b (by simp [hb])) hself]
      simp

theorem perClassTrainCount_close (fraction : ℚ) (c : Nat)
    (hf0 : 0 ≤ fraction) (hf1 : fraction ≤ 1) (hc : 2 ≤ c) :
    |((perClassTrainCount fraction c : ℚ)) - fraction * c| ≤ 1 := by
  unfold perClassTrainCount
  rw [if_neg (by omega)]
  have hx0 : 0 ≤ fraction * (c : ℚ) := by positivity
  have hxc : fraction * (c : ℚ) ≤ (c : ℚ) := by
    calc fraction * (c : ℚ) ≤ 1 * (c : ℚ) :=
          mul_le_mul_of_nonneg_right hf1 (by positivity)
      _ = (c : ℚ) := one_mul _
  have hfloor0 : 0 ≤ ⌊fraction * (c : ℚ) + 1 / 2⌋ :=
    Int.floor_nonneg.mpr (by linarith)
  have hcast : ((ratRound (fraction * (c : ℚ)) : ℤ) : ℚ) =
      ((⌊fraction * (c : ℚ) + 1 / 2⌋ : ℤ) : ℚ) := by
    unfold ratRound
    rw [Int.toNat_of_nonneg hfloor0]
  have hrle : ((ratRound (fraction * (c : ℚ)) : ℕ) : ℚ) ≤
      fraction * (c : ℚ) + 1 / 2 := by
    have := Int.floor_le (fraction * (c : ℚ) + 1 / 2)
    push_cast at hcast ⊢
    rw [hcast]
    exact this
  have hrgt : fraction * (c : ℚ) + 1 / 2 <
      ((ratRound (fraction * (c : ℚ)) : ℕ) : ℚ) + 1 := by
    have := Int.lt_floor_add_one (fraction * (c : ℚ) + 1 / 2)
    push_cast at hcast ⊢
    rw [hcast]
    exact this
  rcases Nat.lt_or_ge (ratRound (fraction * (c : ℚ))) 1 with h1 | h1
  · have hknat : max 1 (min (c - 1) (ratRound (fraction * (c : ℚ)))) = 1 :=
      by omega
    have hr0 : ratRound (fraction * (c : ℚ)) = 0 := by omega
    rw [hr0] at hrgt
    rw [hknat]
    rw [abs_le]
    constructor
    · push_cast
      linarith
    · push_cast at hrgt ⊢
      linarith
  · rcases le_or_lt (ratRound (fraction * (c : ℚ))) (c - 1) with h2 | h2
    · have hknat : max 1 (min (c - 1) (ratRound (fraction * (c : ℚ)))) =
        ratRound (fraction * (c : ℚ)) := by omega
      rw [hknat, abs_le]
      constructor
      · linarith
      · linarith
    · have hknat : max 1 (min (c - 1) (ratRound (fraction * (c : ℚ)))) =
        c - 1 := by omega
      have hcr : (c : ℚ) ≤ ((ratRound (fraction * (c : ℚ)) : ℕ) : ℚ) := by
        have : c ≤ ratRound (fraction * (c : ℚ)) := by omega
        exact_mod_cast this
      rw [hknat, Nat.cast_sub (by omega), abs_le]
      constructor
      · push_cast
        linarith
      · push_cast
        linarith


theorem split_data_get {V α : Type} (data : List (DistributionDataItem V α))
    (fraction : ℚ) (rand : List Nat) (j : Nat)
    (h : j < (split_data data true fraction rand).length)
    (h2 : j < data.length) :
    (split_data data true fraction rand).get ⟨j, h⟩ =
      { data.get ⟨j, h2⟩ with
        purpose := some (if j ∈ stratified_selection
            (data.map (fun it => it.annotated_label)) fraction
          then .TRAIN else .TEST) } :=
  assignTrainTestPurpose_get _ _ _ h h2

theorem split_data_length {V α : Type}
    (data : List (DistributionDataItem V α)) (fraction : ℚ)
    (rand : List Nat) :
    (split_data data true fraction rand).length = data.length :=
  assignPurpose_length _ _ _

/-- C7 (amended): the stratified ID split, at any fraction in `[0, 1]`, is
stratified per class: for every annotated class with at least 2 members,
after `_split_data` both the TRAIN and the TEST partition contain at least
one item of that class, and the number of TRAIN items of that class is
within one sample of the fraction of that class's count; moreover item `i`
receives purpose TRAIN exactly when `i` is a selected index.  (The original
claim's global clause - total TRAIN within one sample of the fraction of
the overall total - cannot coexist with per-class coverage and fails; see
the counterexample.) -/
theorem claim_C7_amended {V α : Type}
    (data : List (DistributionDataItem V α)) (fraction : ℚ)
    (rand : List Nat) (label : Option String)
    (hf0 : 0 ≤ fraction) (hf1 : fraction ≤ 1)
    (hcount : 2 ≤ (classIndices (data.map (fun it => it.annotated_label))
      label).length) :
    (∃ i, ∃ h : i < (split_data data true fraction rand).length,
      ((split_data data true fraction rand).get ⟨i, h⟩).annotated_label =
        label ∧
      ((split_data data true fraction rand).get ⟨i, h⟩).purpose =
        some .TRAIN) ∧
    (∃ i, ∃ h : i < (split_data data true fraction rand).length,
      ((split_data data true fraction rand).get ⟨i, h⟩).annotated_label =
        label ∧
      ((split_data data true fraction rand).get ⟨i, h⟩).purpose =
        some .TEST) ∧
    |((((stratified_selection (data.map (fun it => it.annotated_label))
          fraction).filter (fun i =>
            (data.map (fun it => it.annotated_label)).getD i none ==
              label)).length : ℚ)) -
      fraction * ((classIndices (data.map (fun it => it.annotated_label))
        label).length : ℚ)| ≤ 1 ∧
    (∀ i (h : i < (split_data data true fraction rand).length),
      ((split_data data true fraction rand).get ⟨i, h⟩).purpose =
        some (if i ∈ stratified_selection
            (data.map (fun it => it.annotated_label)) fraction
          then .TRAIN else .TEST)) := by
  have hlablen : (data.map (fun it => it.annotated_label)).length =
      data.length := List.length_map _ _
  have hsdlen := split_data_length data fraction rand
  obtain ⟨hk1, hk2⟩ := perClassTrainCount_bounds fraction
    (classIndices (data.map (fun it => it.annotated_label)) label).length
    hcount
  have hc0 : 0 < (classIndices (data.map (fun it => it.annotated_label))
      label).length := by omega
  have hlabmem : label ∈ (data.map (fun it => it.annotated_label)).dedup := by
    have hmem0 : (classIndices (data.map (fun it => it.annotated_label))
        label)[0] ∈
        classIndices (data.map (fun it => it.annotated_label)) label :=
      List.getElem_mem hc0
    obtain ⟨hlt, heq⟩ := (classIndices_mem _ _ _).mp hmem0
    rw [List.mem_dedup, ← heq, List.getD_eq_getElem _ none hlt]
    exact List.getElem_mem hlt
  have hginsel : ∀ j ∈ (classIndices
      (data.map (fun it => it.annotated_label)) label).take
        (perClassTrainCount fraction (classIndices
          (data.map (fun it => it.annotated_label)) label).length),
      j ∈ stratified_selection (data.map (fun it => it.annotated_label))
        fraction := by
    intro j hj
    unfold stratified_selection
    rw [List.mem_flatMap]
    exact ⟨label, hlabmem, hj⟩
  have hselchar : ∀ j ∈ stratified_selection
      (data.map (fun it => it.annotated_label)) fraction,
      (data.map (fun it => it.annotated_label)).getD j none = label →
      j ∈ (classIndices (data.map (fun it => it.annotated_label))
        label).take (perClassTrainCount fraction (classIndices
          (data.map (fun it => it.annotated_label)) label).length) := by
    intro j hj hlab
    unfold stratified_selection at hj
    rw [List.mem_flatMap] at hj
    obtain ⟨l2, hl2dedup, hjg⟩ := hj
    have hjci : j ∈ classIndices (data.map (fun it => it.annotated_label))
        l2 := List.take_subset _ _ hjg
    obtain ⟨-, heq2⟩ := (classIndices_mem _ _ _).mp hjci
    rw [hlab] at heq2
    rw [← heq2] at hjg
    exact hjg
  have hgetD_label : ∀ j (hj : j < data.length),
      (data.map (fun it => it.annotated_label)).getD j none =
        (data.get ⟨j, hj⟩).annotated_label := by
    intro j hj
    rw [getD_map (fun it => it.annotated_label) data j
      (data.get ⟨j, hj⟩) none hj,
      List.getD_eq_getElem data _ hj]
    rfl
  refine ⟨?_, ?_, ?_, ?_⟩
  · -- TRAIN member of the class
    have htakene : (classIndices (data.map
        (fun it => it.annotated_label)) label).take
          (perClassTrainCount fraction (classIndices
            (data.map (fun it => it.annotated_label)) label).length) ≠
        [] := by
      intro hnil
      have := congrArg List.length hnil
      rw [List.length_take, List.length_nil] at this
      omega
    obtain ⟨j0, hj0take⟩ := List.exists_mem_of_ne_nil _ htakene
    have hj0ci : j0 ∈ classIndices
        (data.map (fun it => it.annotated_label)) label :=
      List.take_subset _ _ hj0take
    obtain ⟨hj0lt, hj0lab⟩ := (classIndices_mem _ _ _).mp hj0ci
    have hj0data : j0 < data.length := by omega
    have hj0sel := hginsel _ hj0take
    refine ⟨j0, by omega, ?_, ?_⟩
    · rw [split_data_get data fraction rand j0 (by omega) hj0data]
      exact (hgetD_label _ hj0data).symm.trans hj0lab
    · rw [split_data_get data fraction rand j0 (by omega) hj0data]
      simp only
      rw [if_pos hj0sel]
  · -- TEST member of the class
    have hdropne : (classIndices (data.map
        (fun it => it.annotated_label)) label).drop
          (perClassTrainCount fraction (classIndices
            (data.map (fun it => it.annotated_label)) label).length) ≠
        [] := by
      intro hnil
      have := congrArg List.length hnil
      rw [List.length_drop, List.length_nil] at this
      omega
    obtain ⟨j1, hj1drop⟩ := List.exists_mem_of_ne_nil _ hdropne
    have hj1ci : j1 ∈ classIndices
        (data.map (fun it => it.annotated_label)) label :=
      List.drop_subset _ _ hj1drop
    obtain ⟨hj1lt, hj1lab⟩ := (classIndices_mem _ _ _).mp hj1ci
    have hj1data : j1 < data.length := by omega
    have hj1notsel : j1 ∉ stratified_selection
        (data.map (fun it => it.annotated_label)) fraction := by
      intro hj1sel
      have hj1take := hselchar _ hj1sel hj1lab
      have hcnt := List.nodup_iff_count_le_one.mp
        (classIndices_nodup (data.map (fun it => it.annotated_label))
          label) j1
      rw [← List.take_append_drop (perClassTrainCount fraction
        (classIndices (data.map (fun it => it.annotated_label))
          label).length)
        (classIndices (data.map (fun it => it.annotated_label)) label),
        List.count_append] at hcnt
      have h1 := List.count_pos_iff.mpr hj1take
      have h2 := List.count_pos_iff.mpr hj1drop
      omega
    refine ⟨j1, by omega, ?_, ?_⟩
    · rw [split_data_get data fraction rand j1 (by omega) hj1data]
      exact (hgetD_label _ hj1data).symm.trans hj1lab
    · rw [split_data_get data fraction rand j1 (by omega) hj1data]
      simp only
      rw [if_neg hj1notsel]
  · -- per-class TRAIN count within one of the fraction of the class count
    have hfilter : (stratified_selection
        (data.map (fun it => it.annotated_label)) fraction).filter
          (fun i => (data.map (fun it => it.annotated_label)).getD i
            none == label) =
        (classIndices (data.map (fun it => it.annotated_label))
          label).take (perClassTrainCount fraction (classIndices
            (data.map (fun it => it.annotated_label)) label).length) := by
      unfold stratified_selection
      apply filter_flatMap_single _ _ label _ hlabmem (List.nodup_dedup _)
      · intro l2 hl2 hne
        rw [List.filter_eq_nil_iff]
        intro j hj
        have hjci : j ∈ classIndices
            (data.map (fun it => it.annotated_label)) l2 :=
          List.take_subset _ _ hj
        obtain ⟨-, heq2⟩ := (classIndices_mem _ _ _).mp hjci
        simp only [heq2]
        simpa using hne
      · rw [List.filter_eq_self]
        intro j hj
        have hjci : j ∈ classIndices
            (data.map (fun it => it.annotated_label)) label :=
          List.take_subset _ _ hj
        obtain ⟨-, heq2⟩ := (classIndices_mem _ _ _).mp hjci
        rw [heq2]
        simp
    rw [hfilter, List.length_take, min_eq_left (by omega)]
    exact perClassTrainCount_close fraction _ hf0 hf1 hcount
  · -- purpose assignment
    intro i h
    have h2 : i < data.length := by
      rw [split_data_length data fraction rand] at h
      exact h
    rw [split_data_get data fraction rand i h h2]

/-- Ten ID items in five classes of two members each: the input on which
the original C7 claim fails. -/
def c7Items : List (DistributionDataItem Unit ℚ) :=
  [sampleItem "a" (some "a") 1, sampleItem "a" (some "a") 1,
   sampleItem "b" (some "b") 1, sampleItem "b" (some "b") 1,
   sampleItem "c" (some "c") 1, sampleItem "c" (some "c") 1,
   sampleItem "d" (some "d") 1, sampleItem "d" (some "d") 1,
   sampleItem "e" (some "e") 1, sampleItem "e" (some "e") 1]

/-- C7 counterexample: on ten ID items in five two-member classes, split at
the default ratio 0.90, the stratified split keeps one member of every
class out of TRAIN, so only 5 of 10 items are TRAIN - not within one
sample of 0.9 * 10 = 9.  The claim's global "within one sample" clause is
false. -/
theorem claim_C7_counterexample :
    ¬ (|(((split_data c7Items true (9 / 10) []).countP
        (fun it => it.purpose == some DistributionDataItemPurpose.TRAIN) :
          ℚ)) - (9 / 10) * ((c7Items.length : ℚ))| ≤ 1) := by
  have hpc : perClassTrainCount (9 / 10) 2 = 1 := by
    unfold perClassTrainCount
    rw [if_neg (by omega)]
    omega
  have hsel0 : stratified_selection
      ([some "a", some "a", some "b", some "b", some "c", some "c",
        some "d", some "d", some "e", some "e"] : List (Option String))
      (9 / 10) = [0, 2, 4, 6, 8] := by
    unfold stratified_selection
    rw [show ([some "a", some "a", some "b", some "b", some "c", some "c",
        some "d", some "d", some "e", some "e"] :
          List (Option String)).dedup =
      [some "a", some "b", some "c", some "d", some "e"] from rfl]
    simp only [List.flatMap_cons, List.flatMap_nil]
    rw [show classIndices ([some "a", some "a", some "b", some "b",
        some "c", some "c", some "d", some "d", some "e", some "e"] :
          List (Option String)) (some "a") = [0, 1] from rfl,
      show classIndices ([some "a", some "a", some "b", some "b",
        some "c", some "c", some "d", some "d", some "e", some "e"] :
          List (Option String)) (some "b") = [2, 3] from rfl,
      show classIndices ([some "a", some "a", some "b", some "b",
        some "c", some "c", some "d", some "d", some "e", some "e"] :
          List (Option String)) (some "c") = [4, 5] from rfl,
      show classIndices ([some "a", some "a", some "b", some "b",
        some "c", some "c", some "d", some "d", some "e", some "e"] :
          List (Option String)) (some "d") = [6, 7] from rfl,
      show classIndices ([some "a", some "a", some "b", some "b",
        some "c", some "c", some "d", some "d", some "e", some "e"] :
          List (Option String)) (some "e") = [8, 9] from rfl]
    rw [show ([0, 1] : List Nat).length = 2 from rfl,
      show ([2, 3] : List Nat).length = 2 from rfl,
      show ([4, 5] : List Nat).length = 2 from rfl,
      show ([6, 7] : List Nat).length = 2 from rfl,
      show ([8, 9] : List Nat).length = 2 from rfl, hpc]
    rfl
  have hsel : stratified_selection
      (c7Items.map (fun it => it.annotated_label)) (9 / 10) =
      [0, 2, 4, 6, 8] := by
    rw [show c7Items.map (fun it => it.annotated_label) =
      ([some "a", some "a", some "b", some "b", some "c", some "c",
        some "d", some "d", some "e", some "e"] : List (Option String))
      from rfl]
    exact hsel0
  have hsplit : split_data c7Items true (9 / 10) [] =
      assignTrainTestPurpose c7Items [0, 2, 4, 6, 8] := by
    show assignTrainTestPurpose c7Items (stratified_selection
      (c7Items.map (fun it => it.annotated_label)) (9 / 10)) = _
    rw [hsel]
  rw [hsplit]
  rw [show (assignTrainTestPurpose c7Items [0, 2, 4, 6, 8]).countP
      (fun it => it.purpose == some DistributionDataItemPurpose.TRAIN) = 5
    from rfl]
  rw [show c7Items.length = 10 from rfl]
  intro h
  rw [abs_le] at h
  have h1 := h.1
  norm_num at h1

/-- Witness for C7's amended theorem: class `"a"` of the ten-item input has
two members, and its TRAIN share is within one sample of 0.9 times its
count. -/
theorem claim_C7_amended_witness :
    |(((stratified_selection (c7Items.map (fun it => it.annotated_label))
        (9 / 10)).filter (fun i =>
          (c7Items.map (fun it => it.annotated_label)).getD i none ==
            some "a")).length : ℚ) -
      (9 / 10) * ((classIndices (c7Items.map
        (fun it => it.annotated_label)) (some "a")).length : ℚ)| ≤ 1 := by
  obtain ⟨-, -, h3, -⟩ := claim_C7_amended c7Items (9 / 10) [] (some "a")
    (by norm_num) (by norm_num) (by decide)
  exact h3
